import Mathlib

/-
Verification of the numerical core of dchodge/mcmcpainter.

The repository consists of two Rcpp source files,
`src/dot_painter_cpp.cpp` and `src/mcmc_painter_cpp.cpp`.  Both operate on
flattened H x W x 3 numeric buffers (R `NumericVector`s, column-major with
channel stride H*W) and implement coverage computation, alpha-over
compositing, bounding boxes, sum-of-squared-error scoring, proposal
samplers and full/incremental rendering, once for dot primitives and once
for line primitives.

Modelling conventions used throughout this development:
* C++ `double` values are modelled as real numbers (exact arithmetic);
  `std::sqrt` is `Real.sqrt`; `std::floor`/`std::ceil` followed by the
  `(int)` cast are `Int.floor`/`Int.ceil`; a bare `(int)` cast is `trunc`
  (truncation toward zero); `std::round` is `round` (the two agree on the
  nonnegative values arising at the call sites below).
* An Rcpp `NumericVector` is modelled as `NVec`: an integer length together
  with the stored samples as a total function `ℤ → ℝ` (C++ `int` indices
  are modelled as `ℤ`).  `v[i] = x` becomes `NVec.upd`, `v.length()` is
  `NVec.len`.
* A C `for (i = a; i <= b; ++i)` loop mutating a buffer or accumulator is a
  `List.foldl` over `intRange a b`; `continue` is an `if` that returns the
  accumulator unchanged.
* Draws from R's random number generator (`R::runif`, `R::rnorm`,
  `R::rbeta`) are explicit real-valued parameters of the sampler
  definitions, one per call site in the source, since the RNG is an
  injected external capability.  Theorems constrain each parameter to the
  support of the corresponding distribution: `runif(a,b)` draws lie in
  `[a,b]`, `rbeta` draws lie in `[0,1]`, `rnorm` draws are arbitrary reals.

Definitions follow the C++ sources statement by statement; in particular
they reproduce the sources' index arithmetic exactly, including the call
sites that pass already 0-based pixel coordinates to `idx3`, which itself
subtracts 1 again (`composite_dot_bbox_cpp`, `sse_bbox_dots_cpp`,
`sample_dot_birth_datadriven_cpp`, `re_render_bbox_from_dots_cpp`,
`render_full_canvas_from_dots_cpp` and `composite_line_bbox_cpp`), while
`sse_bbox_cpp`, `re_render_bbox_from_lines_cpp`,
`render_full_canvas_cpp` and `sample_line_birth_datadriven_cpp` pass
1-based coordinates.
-/

namespace McmcPainter

/-- Model of an Rcpp `NumericVector`: a declared length together with the
stored samples, as a total function on integer indices. -/
structure NVec where
  len : ℤ
  data : ℤ → ℝ

/-- Single element write `v[i] = x`. -/
def NVec.upd (v : NVec) (i : ℤ) (x : ℝ) : NVec :=
  ⟨v.len, fun j => if j = i then x else v.data j⟩

/-- The inclusive iteration space of `for (int i = a; i <= b; ++i)`. -/
def intRange (a b : ℤ) : List ℤ :=
  (List.range (b + 1 - a).toNat).map fun i : ℕ => a + (i : ℤ)

/-- All stored samples of a buffer lie in `[0,1]`. -/
def Inv01 (v : NVec) : Prop := ∀ i, 0 ≤ v.data i ∧ v.data i ≤ 1

/-- Two buffers both declare length `n` and agree on every stored sample
(indices `0 ≤ j < n`). -/
def Agree (n : ℤ) (a b : NVec) : Prop :=
  a.len = n ∧ b.len = n ∧ ∀ j, 0 ≤ j → j < n → a.data j = b.data j

/-- `idx3` as defined identically in both source files: linear index for an
R array `[H, W, 3]` in column-major layout.  Its arguments are documented as
1-based and it subtracts 1 from `y` and `x` itself. -/
def idx3 (y x c H W : ℤ) : ℤ :=
  (y - 1) + (x - 1) * H + c * (H * W)

/-- C cast `(int)v` for a `double` `v`: truncation toward zero. -/
noncomputable def trunc (v : ℝ) : ℤ := if v < 0 then ⌈v⌉ else ⌊v⌋

/-- Per-pixel residual magnitudes `mag_sq` computed at the start of both
`sample_dot_birth_datadriven_cpp` and `sample_line_birth_datadriven_cpp`
(identical code): for each flat pixel index `i < H*W`, the Euclidean norm
of the 3-channel difference `target - canvas` at samples `i + c*H*W`. -/
noncomputable def residual_mags (target canvas : NVec) (H W : ℤ) : List ℝ :=
  (List.range (H * W).toNat).map fun i : ℕ =>
    Real.sqrt ((intRange 0 2).foldl (fun s c =>
      let diff := target.data ((i : ℤ) + c * (H * W)) - canvas.data ((i : ℤ) + c * (H * W))
      s + diff * diff) 0)

/-- The `max_mag` scan of the birth samplers. -/
noncomputable def max_mag (l : List ℝ) : ℝ :=
  l.foldl (fun m v => if v > m then v else m) 0

/-- The cumulative-weight first-crossing loop of the birth samplers:
accumulate weights until the running sum reaches the threshold `r` and
return that index; `idx` was initialized to 0, so if the sum never reaches
`r` the result is 0. -/
noncomputable def first_crossing_go : List ℝ → ℝ → ℝ → ℤ → ℤ
  | [], _, _, _ => 0
  | v :: ws, r, cumsum, i =>
    if cumsum + v ≥ r then i else first_crossing_go ws r (cumsum + v) (i + 1)

/-- First index whose cumulative weight reaches `r` (0 if none). -/
noncomputable def first_crossing (ws : List ℝ) (r : ℝ) : ℤ :=
  first_crossing_go ws r 0 0

/-- The `total_weight` accumulated while normalizing the residual
magnitudes by their maximum in the birth samplers. -/
noncomputable def birth_total_weight (target canvas : NVec) (H W : ℤ) : ℝ :=
  ((residual_mags target canvas H W).map fun v =>
    v / max_mag (residual_mags target canvas H W)).foldl (· + ·) 0

/-- Seed-pixel selection shared verbatim by both birth samplers: if the
maximum residual magnitude is below `1e-6`, fall back to the uniform draws
`(u_fx, u_fy)`; otherwise normalize the magnitudes by the maximum and pick
the first index whose cumulative weight reaches the uniform threshold
`u_r`, returning its 1-based pixel coordinates `(x0, y0)` as doubles. -/
noncomputable def birth_seed_xy (target canvas : NVec) (H W : ℤ) (u_fx u_fy u_r : ℝ) :
    ℝ × ℝ :=
  let mags := residual_mags target canvas H W
  let m := max_mag mags
  if m < 1e-6 then (u_fx, u_fy)
  else
    let ws := mags.map fun v => v / m
    let idx := first_crossing ws u_r
    (((idx / H + 1 : ℤ) : ℝ), ((idx % H + 1 : ℤ) : ℝ))

namespace DotPainter

/-- A dot primitive (the fields of the R list used by
`dot_painter_cpp.cpp`). -/
structure Dot where
  x : ℝ
  y : ℝ
  radius : ℝ
  alpha : ℝ
  col : ℝ × ℝ × ℝ

/-- Field domains claimed of sampler outputs by C8, apart from alpha
(which differs between the clamped and unclamped samplers): center within
the canvas, radius at least 1, color channels in `[0,1]`. -/
def DotFields (W H : ℤ) (d : Dot) : Prop :=
  1 ≤ d.x ∧ d.x ≤ (W : ℝ) ∧ 1 ≤ d.y ∧ d.y ≤ (H : ℝ) ∧ 1 ≤ d.radius ∧
  0 ≤ d.col.1 ∧ d.col.1 ≤ 1 ∧ 0 ≤ d.col.2.1 ∧ d.col.2.1 ≤ 1 ∧
  0 ≤ d.col.2.2 ∧ d.col.2.2 ≤ 1

/-- Field bounds assumed of a dot by claim C5 (and its amendment): alpha
in `(0,1)` and color channels in `[0,1]`. -/
def DotOK (d : Dot) : Prop :=
  0 < d.alpha ∧ d.alpha < 1 ∧ 0 ≤ d.col.1 ∧ d.col.1 ≤ 1 ∧
  0 ≤ d.col.2.1 ∧ d.col.2.1 ≤ 1 ∧ 0 ≤ d.col.2.2 ∧ d.col.2.2 ≤ 1

/-- `clamp01` from `dot_painter_cpp.cpp` (this version does clamp both
sides). -/
noncomputable def clamp01 (v : ℝ) : ℝ :=
  if v < 0 then 0 else if v > 1 then 1 else v

/-- Dot coverage as a function of the radius and the squared distance `d2`
from the pixel center to the dot center, as computed by the drawing loops of
`dot_painter_cpp.cpp` (the `if (d2 > r2) continue;` early exit is modelled
as coverage 0, which the subsequent `coverage <= 0` test then skips
identically). -/
noncomputable def dot_coverage (radius d2 : ℝ) : ℝ :=
  if d2 > radius * radius then 0
  else if d2 > (radius - 1) * (radius - 1) then
    if 1 - Real.sqrt d2 / radius < 0 then 0 else 1 - Real.sqrt d2 / radius
  else 1

/-- Coverage of the pixel with 1-based integer coordinates `(x0, y0)`
(pixel center `(x0 - 0.5, y0 - 0.5)`) for a dot centered at `(x, y)`. -/
noncomputable def dot_pixel_coverage (x y radius : ℝ) (x0 y0 : ℤ) : ℝ :=
  let px : ℝ := (x0 : ℝ) - 0.5
  let py : ℝ := (y0 : ℝ) - 0.5
  dot_coverage radius ((px - x) * (px - x) + (py - y) * (py - y))

/-- `dot_bbox_cpp`: the dot's pixel bounding box `(xmin, xmax, ymin, ymax)`
clamped into `[1,W]` and `[1,H]`. -/
noncomputable def dot_bbox_cpp (x y radius : ℝ) (W H : ℤ) : ℤ × ℤ × ℤ × ℤ :=
  (max 1 ⌊x - radius⌋, min W ⌈x + radius⌉, max 1 ⌊y - radius⌋, min H ⌈y + radius⌉)

/-- Body of the dot-drawing loops, shared verbatim by
`composite_dot_bbox_cpp`, `re_render_bbox_from_dots_cpp` and
`render_full_canvas_from_dots_cpp`: bounds checks, coverage, alpha
clamping, and the alpha-over write `out = in + a*(col - in)` on the three
channel samples.  Note the source computes `y_idx = y0 - 1` and then calls
`idx3(y_idx, x_idx, c, H, W)`, which subtracts 1 once more. -/
noncomputable def dot_draw_pixel (H W : ℤ) (x y radius alpha cr cg cb : ℝ)
    (cv : NVec) (y0 x0 : ℤ) : NVec :=
  let y_idx := y0 - 1
  let x_idx := x0 - 1
  if y_idx < 0 ∨ H ≤ y_idx ∨ x_idx < 0 ∨ W ≤ x_idx then cv
  else
    let coverage := dot_pixel_coverage x y radius x0 y0
    if coverage ≤ 0 ∨ alpha ≤ 0 then cv
    else
      let a := clamp01 (coverage * alpha)
      let i0 := idx3 y_idx x_idx 0 H W
      let i1 := idx3 y_idx x_idx 1 H W
      let i2 := idx3 y_idx x_idx 2 H W
      if i0 < 0 ∨ cv.len ≤ i0 ∨ i1 < 0 ∨ cv.len ≤ i1 ∨ i2 < 0 ∨ cv.len ≤ i2 then cv
      else
        let inR := cv.data i0
        let inG := cv.data i1
        let inB := cv.data i2
        ((cv.upd i0 (inR + a * (cr - inR))).upd i1 (inG + a * (cg - inG))).upd i2
          (inB + a * (cb - inB))

/-- `composite_dot_bbox_cpp`: draw one dot over the pixels of the supplied
bounding box. -/
noncomputable def composite_dot_bbox_cpp (canvas : NVec) (H W : ℤ)
    (x y radius alpha : ℝ) (col : ℝ × ℝ × ℝ) (xmin xmax ymin ymax : ℤ) : NVec :=
  (intRange ymin ymax).foldl (fun cv y0 =>
    (intRange xmin xmax).foldl (fun cv2 x0 =>
      dot_draw_pixel H W x y radius alpha col.1 col.2.1 col.2.2 cv2 y0 x0) cv) canvas

/-- `sse_bbox_dots_cpp`: sum of squared differences accumulated over the
rectangle, with per-pixel canvas-bounds checks and per-sample index
checks.  As in the source, the already 0-based `y_idx`, `x_idx` are passed
to `idx3`. -/
noncomputable def sse_bbox_dots_cpp (target canvas : NVec)
    (H W xmin xmax ymin ymax : ℤ) : ℝ :=
  (intRange ymin ymax).foldl (fun acc y =>
    (intRange xmin xmax).foldl (fun acc2 x =>
      if y - 1 < 0 ∨ H ≤ y - 1 ∨ x - 1 < 0 ∨ W ≤ x - 1 then acc2
      else
        (intRange 0 2).foldl (fun acc3 c =>
          let idx := idx3 (y - 1) (x - 1) c H W
          if idx < 0 ∨ target.len ≤ idx ∨ canvas.len ≤ idx then acc3
          else acc3 + (target.data idx - canvas.data idx) *
            (target.data idx - canvas.data idx)) acc2) acc) 0

/-- The buffer indices `sse_bbox_dots_cpp` actually dereferences (each
surviving index is read from both `target` and `canvas`). -/
def sse_bbox_dots_reads (tlen clen H W xmin xmax ymin ymax : ℤ) : List ℤ :=
  (intRange ymin ymax).flatMap fun y =>
    (intRange xmin xmax).flatMap fun x =>
      if y - 1 < 0 ∨ H ≤ y - 1 ∨ x - 1 < 0 ∨ W ≤ x - 1 then []
      else
        (intRange 0 2).flatMap fun c =>
          let idx := idx3 (y - 1) (x - 1) c H W
          if idx < 0 ∨ tlen ≤ idx ∨ clen ≤ idx then [] else [idx]

/-- `sample_dot_prior_cpp`.  RNG draws: `u_x = runif(1,W)`,
`u_y = runif(1,H)`, `n_r = rnorm(0,2)`, `b_a = rbeta(2,2)`,
`u_c0 u_c1 u_c2 = runif(0,1)`. -/
noncomputable def sample_dot_prior_cpp (W H : ℤ) (u_x u_y n_r b_a u_c0 u_c1 u_c2 : ℝ) :
    Dot :=
  { x := u_x, y := u_y, radius := |n_r| + 1, alpha := b_a, col := (u_c0, u_c1, u_c2) }

/-- `jitter_dot_cpp`.  RNG draws: `n_x n_y = rnorm(0,s_xy)`,
`n_r = rnorm(0,s_r)`, `n_a = rnorm(0,s_a)`, `n_c0 n_c1 n_c2 = rnorm(0,s_c)`
(the standard deviations are absorbed into the draws). -/
noncomputable def jitter_dot_cpp (dot : Dot) (W H : ℤ)
    (n_x n_y n_r n_a n_c0 n_c1 n_c2 : ℝ) : Dot :=
  { x := max 1 (min (W : ℝ) (dot.x + n_x)),
    y := max 1 (min (H : ℝ) (dot.y + n_y)),
    radius := max 1 (dot.radius + n_r),
    alpha := min 0.999 (max 0.001 (dot.alpha + n_a)),
    col := (min 1 (max 0 (dot.col.1 + n_c0)),
            min 1 (max 0 (dot.col.2.1 + n_c1)),
            min 1 (max 0 (dot.col.2.2 + n_c2))) }

/-- `sample_dot_birth_datadriven_cpp`.  RNG draws: `u_fx u_fy` are the
uniform fallback position draws, `u_r = runif(0, total_weight)`,
`n_rad = rnorm(0,1.5)`, `b_a = rbeta(2,2)`, `u_in0 u_in1 u_in2` the
per-channel `runif(0,1)` fallbacks of the in-bounds branch, and
`u_e0 n_e1 u_e2` the draws of the out-of-bounds color branch (the middle
one a normal draw in the source).  Note the source passes the already
0-based `y_idx`, `x_idx` to `idx3`. -/
noncomputable def sample_dot_birth_datadriven_cpp (target canvas : NVec) (H W : ℤ)
    (u_fx u_fy u_r n_rad b_a u_in0 u_in1 u_in2 u_e0 n_e1 u_e2 : ℝ) : Dot :=
  let xy := birth_seed_xy target canvas H W u_fx u_fy u_r
  let x0 := xy.1
  let y0 := xy.2
  let x_idx := trunc x0 - 1
  let y_idx := trunc y0 - 1
  let colc : ℤ → ℝ → ℝ := fun c u =>
    let ti := idx3 y_idx x_idx c H W
    if 0 ≤ ti ∧ ti < target.len then target.data ti else u
  { x := x0, y := y0, radius := |n_rad| + 1, alpha := b_a,
    col :=
      if 0 ≤ x_idx ∧ x_idx < W ∧ 0 ≤ y_idx ∧ y_idx < H then
        (colc 0 u_in0, colc 1 u_in1, colc 2 u_in2)
      else (u_e0, n_e1, u_e2) }

/-- Body of the bbox-clearing loop of `re_render_bbox_from_dots_cpp`:
bounds checks, then the three channel samples are set to white.  The
already 0-based `y_idx`, `x_idx` are passed to `idx3`. -/
noncomputable def dot_reset_pixel (H W : ℤ) (cv : NVec) (y x : ℤ) : NVec :=
  let y_idx := y - 1
  let x_idx := x - 1
  if y_idx < 0 ∨ H ≤ y_idx ∨ x_idx < 0 ∨ W ≤ x_idx then cv
  else
    let i0 := idx3 y_idx x_idx 0 H W
    let i1 := idx3 y_idx x_idx 1 H W
    let i2 := idx3 y_idx x_idx 2 H W
    if i0 < 0 ∨ cv.len ≤ i0 ∨ i1 < 0 ∨ cv.len ≤ i1 ∨ i2 < 0 ∨ cv.len ≤ i2 then cv
    else ((cv.upd i0 1).upd i1 1).upd i2 1

/-- `re_render_bbox_from_dots_cpp`: clear the rectangle to white, then for
every dot that passes the rectangle-intersection test, draw it over the
intersection of its bounding box with the rectangle. -/
noncomputable def re_render_bbox_from_dots_cpp (canvas : NVec) (dots : List Dot)
    (H W xmin xmax ymin ymax : ℤ) : NVec :=
  let reset := (intRange ymin ymax).foldl (fun cv y =>
    (intRange xmin xmax).foldl (fun cv2 x => dot_reset_pixel H W cv2 y x) cv) canvas
  dots.foldl (fun cv dot =>
    if dot.x + dot.radius < (xmin : ℝ) ∨ (xmax : ℝ) < dot.x - dot.radius ∨
        dot.y + dot.radius < (ymin : ℝ) ∨ (ymax : ℝ) < dot.y - dot.radius then cv
    else
      let dxmin := max xmin ⌊dot.x - dot.radius⌋
      let dxmax := min xmax ⌈dot.x + dot.radius⌉
      let dymin := max ymin ⌊dot.y - dot.radius⌋
      let dymax := min ymax ⌈dot.y + dot.radius⌉
      (intRange dymin dymax).foldl (fun cv2 y0 =>
        (intRange dxmin dxmax).foldl (fun cv3 x0 =>
          dot_draw_pixel H W dot.x dot.y dot.radius dot.alpha dot.col.1 dot.col.2.1
            dot.col.2.2 cv3 y0 x0) cv2) cv) reset

/-- `render_full_canvas_from_dots_cpp`: set every sample of the supplied
buffer to white (`for i in [0, canvas.length())`), then draw every dot over
its own clamped bounding box. -/
noncomputable def render_full_canvas_from_dots_cpp (canvas : NVec) (dots : List Dot)
    (H W : ℤ) : NVec :=
  let white : NVec := ⟨canvas.len, fun i => if 0 ≤ i ∧ i < canvas.len then 1 else canvas.data i⟩
  dots.foldl (fun cv dot =>
    let bxmin := max 1 ⌊dot.x - dot.radius⌋
    let bxmax := min W ⌈dot.x + dot.radius⌉
    let bymin := max 1 ⌊dot.y - dot.radius⌋
    let bymax := min H ⌈dot.y + dot.radius⌉
    (intRange bymin bymax).foldl (fun cv2 y0 =>
      (intRange bxmin bxmax).foldl (fun cv3 x0 =>
        dot_draw_pixel H W dot.x dot.y dot.radius dot.alpha dot.col.1 dot.col.2.1
          dot.col.2.2 cv3 y0 x0) cv2) cv) white

end DotPainter

namespace LinePainter

/-- A line primitive (the fields of the R list used by
`mcmc_painter_cpp.cpp`). -/
structure Line where
  x1 : ℝ
  y1 : ℝ
  x2 : ℝ
  y2 : ℝ
  w : ℝ
  alpha : ℝ
  col : ℝ × ℝ × ℝ

/-- Field domains claimed of sampler outputs by C8, apart from alpha:
endpoints within the canvas, positive width, color channels in `[0,1]`. -/
def LineFields (W H : ℤ) (l : Line) : Prop :=
  1 ≤ l.x1 ∧ l.x1 ≤ (W : ℝ) ∧ 1 ≤ l.y1 ∧ l.y1 ≤ (H : ℝ) ∧
  1 ≤ l.x2 ∧ l.x2 ≤ (W : ℝ) ∧ 1 ≤ l.y2 ∧ l.y2 ≤ (H : ℝ) ∧ 0 < l.w ∧
  0 ≤ l.col.1 ∧ l.col.1 ≤ 1 ∧ 0 ≤ l.col.2.1 ∧ l.col.2.1 ≤ 1 ∧
  0 ≤ l.col.2.2 ∧ l.col.2.2 ≤ 1

/-- Field bounds assumed of a line by claim C5 as amended: nonnegative
width, alpha in `(0,1)` and color channels in `[0,1]`. -/
def LineOK (l : Line) : Prop :=
  0 ≤ l.w ∧ 0 < l.alpha ∧ l.alpha < 1 ∧ 0 ≤ l.col.1 ∧ l.col.1 ≤ 1 ∧
  0 ≤ l.col.2.1 ∧ l.col.2.1 ≤ 1 ∧ 0 ≤ l.col.2.2 ∧ l.col.2.2 ≤ 1

/-- `clamp01` from `mcmc_painter_cpp.cpp`.  Note that this version returns
`v` unchanged when `v > 1.0`: it only clamps from below. -/
noncomputable def clamp01 (v : ℝ) : ℝ :=
  if v < 0 then 0 else if v > 1 then v else v

/-- Squared distance from the point `(px, py)` to the segment
`(x1,y1)-(x2,y2)`: projection parameter clamped to `[0,1]`, with the squared
segment length floored by `1e-12`, exactly as in the three line-drawing
loops of `mcmc_painter_cpp.cpp`. -/
noncomputable def line_dist2 (x1 y1 x2 y2 px py : ℝ) : ℝ :=
  let vx := x2 - x1
  let vy := y2 - y1
  let v2 := vx * vx + vy * vy + 1e-12
  let t0 := ((px - x1) * vx + (py - y1) * vy) / v2
  let t := if t0 < 0 then 0 else if t0 > 1 then 1 else t0
  let dx := px - (x1 + t * vx)
  let dy := py - (y1 + t * vy)
  dx * dx + dy * dy

/-- Line (capsule) coverage as a function of the stroke width `w` and the
squared distance `d2` to the segment, as computed in the line-drawing
loops: half-width `r = 0.5*w`, inner radius `r - 0.5`, outer radius
`r + 0.5`, full coverage inside, a linear soft edge, and a pure ramp for
strokes thinner than one pixel. -/
noncomputable def line_cov_of_d2 (w d2 : ℝ) : ℝ :=
  let r := 0.5 * w
  let inr := r - 0.5
  let outr := r + 0.5
  let in2 := if inr > 0 then inr * inr else 0
  let ou2 := outr * outr
  if inr ≤ 0 then
    if d2 < ou2 then
      if 1 - Real.sqrt d2 / outr < 0 then 0 else 1 - Real.sqrt d2 / outr
    else 0
  else if d2 ≤ in2 then 1
  else if d2 ≥ ou2 then 0
  else 1 - (Real.sqrt d2 - inr) / (outr - inr)

/-- Coverage of the pixel with 1-based integer coordinates `(x0, y0)`
(pixel center `(x0 - 0.5, y0 - 0.5)`) for a line. -/
noncomputable def line_pixel_coverage (x1 y1 x2 y2 w : ℝ) (x0 y0 : ℤ) : ℝ :=
  line_cov_of_d2 w (line_dist2 x1 y1 x2 y2 ((x0 : ℝ) - 0.5) ((y0 : ℝ) - 0.5))

/-- `line_bbox_cpp`: bounding box of the segment expanded by `w/2 + pad`,
clamped to the canvas. -/
noncomputable def line_bbox_cpp (x1 y1 x2 y2 w : ℝ) (W H pad : ℤ) : ℤ × ℤ × ℤ × ℤ :=
  let r := w / 2 + (pad : ℝ)
  (max 1 ⌊min x1 x2 - r⌋, min W ⌈max x1 x2 + r⌉,
   max 1 ⌊min y1 y2 - r⌋, min H ⌈max y1 y2 + r⌉)

/-- Body of the drawing loop of `composite_line_bbox_cpp`: pixel bounds
checks, capsule coverage, alpha clamping, sample index checks, and the
alpha-over write `out = a*col + (1-a)*in`.  This call site passes the
already 0-based `y0`, `x0` to `idx3`, which subtracts 1 once more. -/
noncomputable def line_draw_pixel_c (H W : ℤ) (x1 y1 x2 y2 w alpha cr cg cb : ℝ)
    (cv : NVec) (y x : ℤ) : NVec :=
  let y0 := y - 1
  let x0 := x - 1
  if y0 < 0 ∨ H ≤ y0 ∨ x0 < 0 ∨ W ≤ x0 then cv
  else
    let cov := line_pixel_coverage x1 y1 x2 y2 w x y
    if cov ≤ 0 ∨ alpha ≤ 0 then cv
    else
      let a := clamp01 (cov * alpha)
      let i0 := idx3 y0 x0 0 H W
      let i1 := idx3 y0 x0 1 H W
      let i2 := idx3 y0 x0 2 H W
      if i0 < 0 ∨ cv.len ≤ i0 ∨ i1 < 0 ∨ cv.len ≤ i1 ∨ i2 < 0 ∨ cv.len ≤ i2 then cv
      else
        let inR := cv.data i0
        let inG := cv.data i1
        let inB := cv.data i2
        ((cv.upd i0 (a * cr + (1 - a) * inR)).upd i1 (a * cg + (1 - a) * inG)).upd i2
          (a * cb + (1 - a) * inB)

/-- `composite_line_bbox_cpp`: draw one line over the pixels of the
supplied bounding box. -/
noncomputable def composite_line_bbox_cpp (canvas : NVec) (H W : ℤ)
    (x1 y1 x2 y2 w alpha : ℝ) (col : ℝ × ℝ × ℝ) (xmin xmax ymin ymax : ℤ) : NVec :=
  (intRange ymin ymax).foldl (fun cv y =>
    (intRange xmin xmax).foldl (fun cv2 x =>
      line_draw_pixel_c H W x1 y1 x2 y2 w alpha col.1 col.2.1 col.2.2 cv2 y x) cv) canvas

/-- `sse_bbox_cpp`: sum of squared differences over the rectangle.  This
function performs no bounds checks of any kind and passes the 1-based
`y`, `x` to `idx3`. -/
noncomputable def sse_bbox_cpp (target canvas : NVec) (H W xmin xmax ymin ymax : ℤ) : ℝ :=
  (intRange ymin ymax).foldl (fun acc y =>
    (intRange xmin xmax).foldl (fun acc2 x =>
      let i0 := idx3 y x 0 H W
      let i1 := idx3 y x 1 H W
      let i2 := idx3 y x 2 H W
      let d0 := target.data i0 - canvas.data i0
      let d1 := target.data i1 - canvas.data i1
      let d2 := target.data i2 - canvas.data i2
      acc2 + (d0 * d0 + d1 * d1 + d2 * d2)) acc) 0

/-- The buffer indices `sse_bbox_cpp` dereferences (each index is read from
both `target` and `canvas`). -/
def sse_bbox_reads (H W xmin xmax ymin ymax : ℤ) : List ℤ :=
  (intRange ymin ymax).flatMap fun y =>
    (intRange xmin xmax).flatMap fun x =>
      [idx3 y x 0 H W, idx3 y x 1 H W, idx3 y x 2 H W]

/-- `sample_line_prior_cpp`.  RNG draws: `u_x1 = runif(1,W)`,
`u_y1 = runif(1,H)`, `u_ang = runif(0,2*pi)`, `n_len = rnorm(0,30)`,
`n_w = rnorm(0,3)`, `b_a = rbeta(2,2)`, `u_c0 u_c1 u_c2 = runif(0,1)`. -/
noncomputable def sample_line_prior_cpp (W H : ℤ)
    (u_x1 u_y1 u_ang n_len n_w b_a u_c0 u_c1 u_c2 : ℝ) : Line :=
  let len := |n_len| + 5
  { x1 := u_x1, y1 := u_y1,
    x2 := max 1 (min (W : ℝ) (u_x1 + len * Real.cos u_ang)),
    y2 := max 1 (min (H : ℝ) (u_y1 + len * Real.sin u_ang)),
    w := |n_w| + 1, alpha := b_a, col := (u_c0, u_c1, u_c2) }

/-- `jitter_line_cpp`.  RNG draws are modelled as in `jitter_dot_cpp`. -/
noncomputable def jitter_line_cpp (line : Line) (W H : ℤ)
    (n_x1 n_y1 n_x2 n_y2 n_w n_a n_c0 n_c1 n_c2 : ℝ) : Line :=
  { x1 := max 1 (min (W : ℝ) (line.x1 + n_x1)),
    y1 := max 1 (min (H : ℝ) (line.y1 + n_y1)),
    x2 := max 1 (min (W : ℝ) (line.x2 + n_x2)),
    y2 := max 1 (min (H : ℝ) (line.y2 + n_y2)),
    w := max 0.2 (line.w + n_w),
    alpha := min 0.999 (max 0.001 (line.alpha + n_a)),
    col := (min 1 (max 0 (line.col.1 + n_c0)),
            min 1 (max 0 (line.col.2.1 + n_c1)),
            min 1 (max 0 (line.col.2.2 + n_c2))) }

/-- The color probe loop of `sample_line_birth_datadriven_cpp`: 20 evenly
spaced points along the segment, probe coordinates clamped into bounds,
accumulating the target's three channel values and the probe count. -/
noncomputable def line_birth_probe (target : NVec) (H W : ℤ) (x1 y1 x2 y2 : ℝ) :
    (ℝ × ℝ × ℝ) × ℤ :=
  (List.range 20).foldl (fun (st : (ℝ × ℝ × ℝ) × ℤ) (i : ℕ) =>
    let t := (i : ℝ) / 19
    let px : ℤ := min W (max 1 (round (x1 + t * (x2 - x1))))
    let py : ℤ := min H (max 1 (round (y1 + t * (y2 - y1))))
    if 1 ≤ px ∧ px ≤ W ∧ 1 ≤ py ∧ py ≤ H then
      ((st.1.1 + target.data (idx3 py px 0 H W),
        st.1.2.1 + target.data (idx3 py px 1 H W),
        st.1.2.2 + target.data (idx3 py px 2 H W)), st.2 + 1)
    else st) ((0, 0, 0), 0)

/-- Invariant of the probe state: nonnegative count and each accumulated
channel sum between 0 and the count. -/
def ProbeInv (st : (ℝ × ℝ × ℝ) × ℤ) : Prop :=
  0 ≤ st.2 ∧ (0 ≤ st.1.1 ∧ st.1.1 ≤ (st.2 : ℝ)) ∧
  (0 ≤ st.1.2.1 ∧ st.1.2.1 ≤ (st.2 : ℝ)) ∧ (0 ≤ st.1.2.2 ∧ st.1.2.2 ≤ (st.2 : ℝ))

/-- `sample_line_birth_datadriven_cpp`.  RNG draws: `u_fx u_fy u_r` as in
the dot birth sampler, `u_ang = runif(0,2*pi)`, `n_len = rnorm(0,35)`,
`n_w = rnorm(0,3)`, `b_a = rbeta(3,3)`.  The color is the average of the
target sampled at 20 evenly spaced probe points along the segment (probes
are clamped into bounds; this call site passes 1-based coordinates to
`idx3`). -/
noncomputable def sample_line_birth_datadriven_cpp (target canvas : NVec) (H W : ℤ)
    (u_fx u_fy u_r u_ang n_len n_w b_a : ℝ) : Line :=
  let xy := birth_seed_xy target canvas H W u_fx u_fy u_r
  let x0 := xy.1
  let y0 := xy.2
  let len := |n_len| + 8
  let x1 := max 1 (min (W : ℝ) (x0 - len / 2 * Real.cos u_ang))
  let y1 := max 1 (min (H : ℝ) (y0 - len / 2 * Real.sin u_ang))
  let x2 := max 1 (min (W : ℝ) (x0 + len / 2 * Real.cos u_ang))
  let y2 := max 1 (min (H : ℝ) (y0 + len / 2 * Real.sin u_ang))
  let probe := line_birth_probe target H W x1 y1 x2 y2
  let count := probe.2
  let col : ℝ × ℝ × ℝ :=
    if 0 < count then
      (probe.1.1 / (count : ℝ), probe.1.2.1 / (count : ℝ), probe.1.2.2 / (count : ℝ))
    else probe.1
  { x1 := x1, y1 := y1, x2 := x2, y2 := y2, w := |n_w| + 1, alpha := b_a, col := col }

/-- Body of the bbox-clearing loop of `re_render_bbox_from_lines_cpp`:
`canvas[idx3(y, x, c, H, W)] = 1.0` for the three channels, with no bounds
checks and 1-based coordinates. -/
noncomputable def line_reset_pixel (H W : ℤ) (cv : NVec) (y x : ℤ) : NVec :=
  ((cv.upd (idx3 y x 0 H W) 1).upd (idx3 y x 1 H W) 1).upd (idx3 y x 2 H W) 1

/-- Body of the drawing loops of `re_render_bbox_from_lines_cpp` and
`render_full_canvas_cpp`: capsule coverage, then for each channel
sequentially `canvas[i] = a*col[c] + (1-a)*canvas[i]`, with no bounds
checks and 1-based coordinates passed to `idx3`. -/
noncomputable def line_draw_pixel (H W : ℤ) (x1 y1 x2 y2 w alpha cr cg cb : ℝ)
    (cv : NVec) (y x : ℤ) : NVec :=
  let cov := line_pixel_coverage x1 y1 x2 y2 w x y
  if 0 < cov ∧ 0 < alpha then
    let a := clamp01 (cov * alpha)
    let cv0 := cv.upd (idx3 y x 0 H W) (a * cr + (1 - a) * cv.data (idx3 y x 0 H W))
    let cv1 := cv0.upd (idx3 y x 1 H W) (a * cg + (1 - a) * cv0.data (idx3 y x 1 H W))
    cv1.upd (idx3 y x 2 H W) (a * cb + (1 - a) * cv1.data (idx3 y x 2 H W))
  else cv

/-- `re_render_bbox_from_lines_cpp`: clone the base canvas, clear the
rectangle to white, then for every line whose padded bounding box meets the
rectangle, draw it over the intersection of that box with the rectangle. -/
noncomputable def re_render_bbox_from_lines_cpp (base_canvas : NVec) (lines : List Line)
    (xmin xmax ymin ymax H W : ℤ) : NVec :=
  let reset := (intRange ymin ymax).foldl (fun cv y =>
    (intRange xmin xmax).foldl (fun cv2 x => line_reset_pixel H W cv2 y x) cv) base_canvas
  lines.foldl (fun cv l =>
    let r := l.w / 2 + 2
    let lxmin := min l.x1 l.x2 - r
    let lxmax := max l.x1 l.x2 + r
    let lymin := min l.y1 l.y2 - r
    let lymax := max l.y1 l.y2 + r
    if ¬(lxmax < (xmin : ℝ) ∨ (xmax : ℝ) < lxmin ∨ lymax < (ymin : ℝ) ∨
        (ymax : ℝ) < lymin) then
      let dxmin := max xmin ⌊lxmin⌋
      let dxmax := min xmax ⌈lxmax⌉
      let dymin := max ymin ⌊lymin⌋
      let dymax := min ymax ⌈lymax⌉
      (intRange dymin dymax).foldl (fun cv2 y =>
        (intRange dxmin dxmax).foldl (fun cv3 x =>
          line_draw_pixel H W l.x1 l.y1 l.x2 l.y2 l.w l.alpha l.col.1 l.col.2.1
            l.col.2.2 cv3 y x) cv2) cv
    else cv) reset

/-- `render_full_canvas_cpp`: allocate a fresh white `H*W*3` buffer (it
takes no input canvas), then draw every line over its own clamped padded
bounding box. -/
noncomputable def render_full_canvas_cpp (lines : List Line) (H W : ℤ) : NVec :=
  let canvas : NVec := ⟨H * W * 3, fun i => if 0 ≤ i ∧ i < H * W * 3 then 1 else 0⟩
  lines.foldl (fun cv l =>
    let r := l.w / 2 + 2
    let bxmin := max 1 ⌊min l.x1 l.x2 - r⌋
    let bxmax := min W ⌈max l.x1 l.x2 + r⌉
    let bymin := max 1 ⌊min l.y1 l.y2 - r⌋
    let bymax := min H ⌈max l.y1 l.y2 + r⌉
    (intRange bymin bymax).foldl (fun cv2 y =>
      (intRange bxmin bxmax).foldl (fun cv3 x =>
        line_draw_pixel H W l.x1 l.y1 l.x2 l.y2 l.w l.alpha l.col.1 l.col.2.1
          l.col.2.2 cv3 y x) cv2) cv) canvas

end LinePainter

/-! Concrete buffers used by the counterexamples and failing-input
evaluations below. -/

/-- A 4x4x3 base canvas whose every sample is 0.3. -/
noncomputable def base44 : NVec := ⟨48, fun _ => 3 / 10⟩

/-- 4x4 target: all white except pixel (2,2) is pure red `(1,0,0)`; in the
`[H,W,3]` column-major layout of the sources the three samples of pixel
`(x,y) = (2,2)` are `idx3 2 2 c 4 4 = 5 + 16*c`, so its green and blue
samples (indices 21 and 37) are 0. -/
noncomputable def target44 : NVec := ⟨48, fun i => if i = 21 ∨ i = 37 then 0 else 1⟩

/-- 4x4 all-white canvas. -/
noncomputable def canvas44 : NVec := ⟨48, fun _ => 1⟩

/-- 2x2 target for the SSE failing input: all samples 0 except sample 0
(pixel `(1,1)`, channel 0), which is 1. -/
noncomputable def target22 : NVec := ⟨12, fun i => if i = 0 then 1 else 0⟩

/-- 2x2 canvas for the SSE failing input: all samples 0. -/
noncomputable def canvas22 : NVec := ⟨12, fun _ => 0⟩

/-- 2x2 all-zero canvas of length 12 for the clamping counterexample. -/
noncomputable def zero22 : NVec := ⟨12, fun _ => 0⟩

end McmcPainter

/-! ## Theorems -/

namespace McmcPainter

namespace DotPainter

/-- C3, counterexample.  The claim says that in the soft-edge band
`(radius-1)² < d2 ≤ radius²` the coverage ramps linearly from 1 at
`sqrt(d2) = radius-1` down to 0 at `sqrt(d2) = radius`, i.e. equals
`radius - sqrt(d2)`.  At `radius = 2`, `d2 = 9/4` (so `sqrt(d2) = 3/2`,
inside the band `(1, 4]`) the code computes `1 - (3/2)/2 = 1/4`, while the
claimed ramp value is `2 - 3/2 = 1/2`. -/
theorem C3_counterexample :
    dot_coverage 2 (9 / 4) ≠ 2 - Real.sqrt (9 / 4) := by
  have hs : Real.sqrt (9 / 4) = 3 / 2 := by
    rw [show (9 / 4 : ℝ) = (3 / 2) ^ 2 by norm_num]
    exact Real.sqrt_sq (by norm_num)
  rw [dot_coverage, hs]
  norm_num

/-- C3, amended.  For every dot with `radius ≥ 1` and every nonnegative
squared distance `d2`: coverage is 0 when `d2 > radius²`; coverage is
exactly 1 when `d2 ≤ (radius-1)²`; and in the soft-edge band
`(radius-1)² < d2 ≤ radius²` the coverage equals `1 - sqrt(d2)/radius`,
which decreases linearly in `sqrt(d2)` down to 0 at `sqrt(d2) = radius` but
starts at `1/radius` (not 1) at the inner edge of the band. -/
theorem C3_amended (radius d2 : ℝ) (hr : 1 ≤ radius) (hd : 0 ≤ d2) :
    (radius * radius < d2 → dot_coverage radius d2 = 0) ∧
    (d2 ≤ (radius - 1) * (radius - 1) → dot_coverage radius d2 = 1) ∧
    ((radius - 1) * (radius - 1) < d2 → d2 ≤ radius * radius →
      dot_coverage radius d2 = 1 - Real.sqrt d2 / radius) := by
  refine ⟨fun h => ?_, fun h => ?_, fun h1 h2 => ?_⟩
  · rw [dot_coverage, if_pos h]
  · have hble : (radius - 1) * (radius - 1) ≤ radius * radius := by nlinarith
    rw [dot_coverage, if_neg (by push_neg; linarith), if_neg (by push_neg; linarith)]
  · have hrpos : (0 : ℝ) < radius := by linarith
    have hsle : Real.sqrt d2 ≤ radius := by
      have h := Real.sqrt_le_sqrt h2
      rwa [Real.sqrt_mul_self hrpos.le] at h
    have hcov : ¬(1 - Real.sqrt d2 / radius < 0) := by
      push_neg
      have : Real.sqrt d2 / radius ≤ 1 := by
        rw [div_le_one hrpos]; exact hsle
      linarith
    rw [dot_coverage, if_neg (by push_neg; linarith), if_pos h1, if_neg hcov]

/-- Witness for `C3_amended` at `radius = 2`, `d2 = 9/4`. -/
theorem C3_amended_witness :
    dot_coverage 2 (9 / 4) = 1 - Real.sqrt (9 / 4) / 2 :=
  (C3_amended 2 (9 / 4) (by norm_num) (by norm_num)).2.2 (by norm_num) (by norm_num)

end DotPainter

namespace LinePainter

/-- The clamped projection parameter keeps the projected point inside the
coordinate range of the segment endpoints. -/
theorem line_dist2_repr (x1 y1 x2 y2 px py : ℝ) :
    ∃ qx qy, min x1 x2 ≤ qx ∧ qx ≤ max x1 x2 ∧ min y1 y2 ≤ qy ∧ qy ≤ max y1 y2 ∧
      line_dist2 x1 y1 x2 y2 px py =
        (px - qx) * (px - qx) + (py - qy) * (py - qy) := by
  simp only [line_dist2]
  set t0 := ((px - x1) * (x2 - x1) + (py - y1) * (y2 - y1)) /
      ((x2 - x1) * (x2 - x1) + (y2 - y1) * (y2 - y1) + 1e-12) with ht0
  set t : ℝ := if t0 < 0 then 0 else if t0 > 1 then 1 else t0 with ht
  have htm : 0 ≤ t ∧ t ≤ 1 := by
    rw [ht]
    split_ifs with h1 h2
    · exact ⟨le_refl 0, zero_le_one⟩
    · exact ⟨zero_le_one, le_refl 1⟩
    · push_neg at h1 h2
      exact ⟨h1, h2⟩
  have hseg : ∀ a b : ℝ, min a b ≤ a + t * (b - a) ∧ a + t * (b - a) ≤ max a b := by
    intro a b
    rcases le_total a b with hab | hab
    · rw [min_eq_left hab, max_eq_right hab]
      constructor <;> nlinarith [htm.1, htm.2]
    · rw [min_eq_right hab, max_eq_left hab]
      constructor <;> nlinarith [htm.1, htm.2]
  exact ⟨x1 + t * (x2 - x1), y1 + t * (y2 - y1),
    (hseg x1 x2).1, (hseg x1 x2).2, (hseg y1 y2).1, (hseg y1 y2).2, rfl⟩

/-- Line coverage lies in `[0,1]` for nonnegative widths. -/
theorem line_cov_of_d2_mem (w d2 : ℝ) (hw : 0 ≤ w) (hd2 : 0 ≤ d2) :
    0 ≤ line_cov_of_d2 w d2 ∧ line_cov_of_d2 w d2 ≤ 1 := by
  have houtr : (0 : ℝ) < 0.5 * w + 0.5 := by linarith
  have hsq : 0 ≤ Real.sqrt d2 := Real.sqrt_nonneg d2
  have hdiv : 0 ≤ Real.sqrt d2 / (0.5 * w + 0.5) := div_nonneg hsq houtr.le
  simp only [line_cov_of_d2]
  split_ifs with h1 h2 h3 h4 h5 h6 h7 h8
  all_goals try (constructor <;> norm_num <;> done)
  all_goals try (exfalso; linarith [not_le.mp h1, not_lt.mp h4])
  · -- thin-stroke soft edge, below the clamp
    exact ⟨by linarith [not_lt.mp h3], by linarith [hdiv]⟩
  · -- soft edge band of a thick stroke
    have h1' : (0 : ℝ) < 0.5 * w - 0.5 := not_le.mp h1
    have h5' := not_le.mp h5
    have h6' := not_le.mp h6
    have hlo : 0.5 * w - 0.5 < Real.sqrt d2 := by
      have h := Real.sqrt_lt_sqrt (by nlinarith) h5'
      rwa [Real.sqrt_mul_self h1'.le] at h
    have hhi : Real.sqrt d2 < 0.5 * w + 0.5 := by
      have h := Real.sqrt_lt_sqrt hd2 h6'
      rwa [Real.sqrt_mul_self houtr.le] at h
    have hden : (0.5 * w + 0.5) - (0.5 * w - 0.5) = 1 := by ring
    rw [hden]
    constructor <;> (rw [div_one]; linarith)

/-- Line coverage is 0 whenever the squared distance reaches the squared
outer radius. -/
theorem line_cov_of_d2_far (w d2 : ℝ) (h : (0.5 * w + 0.5) * (0.5 * w + 0.5) ≤ d2) :
    line_cov_of_d2 w d2 = 0 := by
  simp only [line_cov_of_d2]
  split_ifs with h1 h2 h3 h4 h5 h6
  all_goals try rfl
  all_goals exfalso
  all_goals linarith

end LinePainter

namespace DotPainter

/-- Dot coverage lies in `[0,1]` for nonnegative radii. -/
theorem dot_coverage_mem (radius d2 : ℝ) (hr : 0 ≤ radius) :
    0 ≤ dot_coverage radius d2 ∧ dot_coverage radius d2 ≤ 1 := by
  simp only [dot_coverage]
  split_ifs with h1 h2 h3
  · constructor <;> norm_num
  · constructor <;> norm_num
  · push_neg at h1 h3
    have hrpos : (0 : ℝ) < radius := by nlinarith
    have : 0 ≤ Real.sqrt d2 / radius := div_nonneg (Real.sqrt_nonneg d2) hrpos.le
    constructor <;> linarith
  · constructor <;> norm_num

set_option maxHeartbeats 1000000 in
/-- C4, confirmed: for every dot with nonnegative radius and every line
with nonnegative width, the coverage computed at any canvas pixel
`(x0, y0) ∈ [1,W] × [1,H]` lies in `[0,1]`; and at any canvas pixel outside
the primitive's bounding box (`dot_bbox_cpp`, resp. `line_bbox_cpp` with
the default pad 2) the coverage is exactly 0: the boxes may over-cover but
never miss a nonzero-coverage pixel. -/
theorem C4_theorem (x y radius x1 y1 x2 y2 w : ℝ) (W H x0 y0 : ℤ)
    (hr : 0 ≤ radius) (hw : 0 ≤ w)
    (hx1 : 1 ≤ x0) (hxW : x0 ≤ W) (hy1 : 1 ≤ y0) (hyH : y0 ≤ H) :
    (0 ≤ dot_pixel_coverage x y radius x0 y0 ∧ dot_pixel_coverage x y radius x0 y0 ≤ 1) ∧
    (0 ≤ LinePainter.line_pixel_coverage x1 y1 x2 y2 w x0 y0 ∧
      LinePainter.line_pixel_coverage x1 y1 x2 y2 w x0 y0 ≤ 1) ∧
    ((x0 < (dot_bbox_cpp x y radius W H).1 ∨ (dot_bbox_cpp x y radius W H).2.1 < x0 ∨
      y0 < (dot_bbox_cpp x y radius W H).2.2.1 ∨ (dot_bbox_cpp x y radius W H).2.2.2 < y0) →
      dot_pixel_coverage x y radius x0 y0 = 0) ∧
    ((x0 < (LinePainter.line_bbox_cpp x1 y1 x2 y2 w W H 2).1 ∨
      (LinePainter.line_bbox_cpp x1 y1 x2 y2 w W H 2).2.1 < x0 ∨
      y0 < (LinePainter.line_bbox_cpp x1 y1 x2 y2 w W H 2).2.2.1 ∨
      (LinePainter.line_bbox_cpp x1 y1 x2 y2 w W H 2).2.2.2 < y0) →
      LinePainter.line_pixel_coverage x1 y1 x2 y2 w x0 y0 = 0) := by
  obtain ⟨qx, qy, hqx1, hqx2, hqy1, hqy2, hrepr⟩ :=
    LinePainter.line_dist2_repr x1 y1 x2 y2 ((x0 : ℝ) - 0.5) ((y0 : ℝ) - 0.5)
  have hd2 : 0 ≤ LinePainter.line_dist2 x1 y1 x2 y2 ((x0 : ℝ) - 0.5) ((y0 : ℝ) - 0.5) := by
    rw [hrepr]
    have h1 := mul_self_nonneg (((x0 : ℝ) - 0.5) - qx)
    have h2 := mul_self_nonneg (((y0 : ℝ) - 0.5) - qy)
    linarith
  refine ⟨dot_coverage_mem radius _ hr,
    LinePainter.line_cov_of_d2_mem w _ hw hd2, fun hout => ?_, fun hout => ?_⟩
  · -- pixel outside the dot box: squared distance exceeds radius^2
    have hfar : radius * radius <
        (((x0 : ℝ) - 0.5) - x) * (((x0 : ℝ) - 0.5) - x) +
        (((y0 : ℝ) - 0.5) - y) * (((y0 : ℝ) - 0.5) - y) := by
      simp only [dot_bbox_cpp] at hout
      rcases hout with h | h | h | h
      · have h' : x0 < ⌊x - radius⌋ := by
          rcases lt_max_iff.mp h with h1 | h2
          · omega
          · exact h2
        have : ((x0 : ℝ) + 1) ≤ x - radius := by
          have hf := Int.floor_le (x - radius)
          have hc : ((x0 + 1 : ℤ) : ℝ) ≤ (⌊x - radius⌋ : ℝ) := by
            exact_mod_cast Int.add_one_le_iff.mpr h'
          push_cast at hc
          linarith
        nlinarith
      · have h' : ⌈x + radius⌉ < x0 := by
          rcases min_lt_iff.mp h with h1 | h2
          · omega
          · exact h2
        have : x + radius + 1 ≤ (x0 : ℝ) := by
          have hf := Int.le_ceil (x + radius)
          have hc : ((⌈x + radius⌉ + 1 : ℤ) : ℝ) ≤ ((x0 : ℤ) : ℝ) := by
            exact_mod_cast Int.add_one_le_iff.mpr h'
          push_cast at hc
          linarith
        nlinarith
      · have h' : y0 < ⌊y - radius⌋ := by
          rcases lt_max_iff.mp h with h1 | h2
          · omega
          · exact h2
        have : ((y0 : ℝ) + 1) ≤ y - radius := by
          have hf := Int.floor_le (y - radius)
          have hc : ((y0 + 1 : ℤ) : ℝ) ≤ (⌊y - radius⌋ : ℝ) := by
            exact_mod_cast Int.add_one_le_iff.mpr h'
          push_cast at hc
          linarith
        nlinarith
      · have h' : ⌈y + radius⌉ < y0 := by
          rcases min_lt_iff.mp h with h1 | h2
          · omega
          · exact h2
        have : y + radius + 1 ≤ (y0 : ℝ) := by
          have hf := Int.le_ceil (y + radius)
          have hc : ((⌈y + radius⌉ + 1 : ℤ) : ℝ) ≤ ((y0 : ℤ) : ℝ) := by
            exact_mod_cast Int.add_one_le_iff.mpr h'
          push_cast at hc
          linarith
        nlinarith
    simp only [dot_pixel_coverage, dot_coverage]
    rw [if_pos hfar]
  · -- pixel outside the line box: squared distance reaches the outer radius
    apply LinePainter.line_cov_of_d2_far
    rw [hrepr]
    simp only [LinePainter.line_bbox_cpp] at hout
    rcases hout with h | h | h | h
    · have h' : x0 < ⌊min x1 x2 - (w / 2 + (2 : ℝ))⌋ := by
        rcases lt_max_iff.mp h with h1 | h2
        · omega
        · exact_mod_cast h2
      have : ((x0 : ℝ) + 1) ≤ min x1 x2 - (w / 2 + 2) := by
        have hf := Int.floor_le (min x1 x2 - (w / 2 + (2 : ℝ)))
        have hc : ((x0 + 1 : ℤ) : ℝ) ≤ (⌊min x1 x2 - (w / 2 + (2 : ℝ))⌋ : ℝ) := by
          exact_mod_cast Int.add_one_le_iff.mpr h'
        push_cast at hc
        linarith
      nlinarith [sq_nonneg (((y0 : ℝ) - 0.5) - qy)]
    · have h' : ⌈max x1 x2 + (w / 2 + (2 : ℝ))⌉ < x0 := by
        rcases min_lt_iff.mp h with h1 | h2
        · omega
        · exact_mod_cast h2
      have : max x1 x2 + (w / 2 + 2) + 1 ≤ (x0 : ℝ) := by
        have hf := Int.le_ceil (max x1 x2 + (w / 2 + (2 : ℝ)))
        have hc : ((⌈max x1 x2 + (w / 2 + (2 : ℝ))⌉ + 1 : ℤ) : ℝ) ≤ ((x0 : ℤ) : ℝ) := by
          exact_mod_cast Int.add_one_le_iff.mpr h'
        push_cast at hc
        linarith
      nlinarith [sq_nonneg (((y0 : ℝ) - 0.5) - qy)]
    · have h' : y0 < ⌊min y1 y2 - (w / 2 + (2 : ℝ))⌋ := by
        rcases lt_max_iff.mp h with h1 | h2
        · omega
        · exact_mod_cast h2
      have : ((y0 : ℝ) + 1) ≤ min y1 y2 - (w / 2 + 2) := by
        have hf := Int.floor_le (min y1 y2 - (w / 2 + (2 : ℝ)))
        have hc : ((y0 + 1 : ℤ) : ℝ) ≤ (⌊min y1 y2 - (w / 2 + (2 : ℝ))⌋ : ℝ) := by
          exact_mod_cast Int.add_one_le_iff.mpr h'
        push_cast at hc
        linarith
      nlinarith [sq_nonneg (((x0 : ℝ) - 0.5) - qx)]
    · have h' : ⌈max y1 y2 + (w / 2 + (2 : ℝ))⌉ < y0 := by
        rcases min_lt_iff.mp h with h1 | h2
        · omega
        · exact_mod_cast h2
      have : max y1 y2 + (w / 2 + 2) + 1 ≤ (y0 : ℝ) := by
        have hf := Int.le_ceil (max y1 y2 + (w / 2 + (2 : ℝ)))
        have hc : ((⌈max y1 y2 + (w / 2 + (2 : ℝ))⌉ + 1 : ℤ) : ℝ) ≤ ((y0 : ℤ) : ℝ) := by
          exact_mod_cast Int.add_one_le_iff.mpr h'
        push_cast at hc
        linarith
      nlinarith [sq_nonneg (((x0 : ℝ) - 0.5) - qx)]

/-- Witness for `C4_theorem` at a concrete pixel and primitives. -/
theorem C4_theorem_witness :
    0 ≤ dot_pixel_coverage 0 0 0 1 1 ∧ dot_pixel_coverage 0 0 0 1 1 ≤ 1 :=
  (C4_theorem 0 0 0 0 0 0 0 0 1 1 1 1 le_rfl le_rfl le_rfl le_rfl le_rfl le_rfl).1

end DotPainter

/-! Sample-range preservation (claim C5). -/

/-- A fold preserves any invariant its step preserves. -/
theorem foldl_inv {α β : Type} (P : α → Prop) (f : α → β → α) (l : List β) :
    ∀ a : α, (∀ x ∈ l, ∀ b, P b → P (f b x)) → P a → P (l.foldl f a) := by
  induction l with
  | nil => intro a _ ha; exact ha
  | cons x xs ih =>
    intro a hstep ha
    simp only [List.foldl_cons]
    exact ih (f a x) (fun z hz b hb => hstep z (List.mem_cons_of_mem x hz) b hb)
      (hstep x (List.mem_cons_self x xs) a ha)

/-- Writing a value in `[0,1]` preserves `Inv01`. -/
theorem Inv01_upd (cv : NVec) (i : ℤ) (x : ℝ) (hcv : Inv01 cv) (h0 : 0 ≤ x)
    (h1 : x ≤ 1) : Inv01 (cv.upd i x) := by
  intro j
  have h : (cv.upd i x).data j = if j = i then x else cv.data j := rfl
  rw [h]
  split_ifs
  · exact ⟨h0, h1⟩
  · exact hcv j

namespace DotPainter

/-- The dot-file `clamp01` always lands in `[0,1]`. -/
theorem clamp01_mem (v : ℝ) : 0 ≤ clamp01 v ∧ clamp01 v ≤ 1 := by
  simp only [clamp01]
  split_ifs with h1 h2
  · exact ⟨le_refl 0, zero_le_one⟩
  · exact ⟨zero_le_one, le_refl 1⟩
  · exact ⟨not_lt.mp h1, not_lt.mp h2⟩

/-- One dot-drawing pixel step preserves `Inv01` whenever the dot's color
channels lie in `[0,1]` (no constraint on radius or alpha is needed: the
dot-file `clamp01` bounds the effective alpha on both sides). -/
theorem dot_draw_pixel_inv (H W : ℤ) (x y radius alpha cr cg cb : ℝ) (cv : NVec)
    (y0 x0 : ℤ) (hcv : Inv01 cv)
    (hcr : 0 ≤ cr) (hcr1 : cr ≤ 1) (hcg : 0 ≤ cg) (hcg1 : cg ≤ 1)
    (hcb : 0 ≤ cb) (hcb1 : cb ≤ 1) :
    Inv01 (dot_draw_pixel H W x y radius alpha cr cg cb cv y0 x0) := by
  simp only [dot_draw_pixel]
  split_ifs with h1 h2 h3
  · exact hcv
  · exact hcv
  · exact hcv
  · obtain ⟨ha0, ha1⟩ := clamp01_mem (dot_pixel_coverage x y radius x0 y0 * alpha)
    set a := clamp01 (dot_pixel_coverage x y radius x0 y0 * alpha) with hadef
    have hstep : ∀ (b : NVec) (i : ℤ) (c v : ℝ), Inv01 b → 0 ≤ c → c ≤ 1 →
        0 ≤ v → v ≤ 1 → Inv01 (b.upd i (v + a * (c - v))) := fun b i c v hb hc0 hc1 hv0 hv1 =>
      Inv01_upd b i _ hb (by nlinarith) (by nlinarith)
    exact hstep _ _ _ _
      (hstep _ _ _ _ (hstep _ _ _ _ hcv hcr hcr1 (hcv _).1 (hcv _).2)
        hcg hcg1 (hcv _).1 (hcv _).2)
      hcb hcb1 (hcv _).1 (hcv _).2

/-- One reset-to-white pixel step preserves `Inv01`. -/
theorem dot_reset_pixel_inv (H W : ℤ) (cv : NVec) (y x : ℤ) (hcv : Inv01 cv) :
    Inv01 (dot_reset_pixel H W cv y x) := by
  simp only [dot_reset_pixel]
  split_ifs with h1 h2
  · exact hcv
  · exact hcv
  · exact Inv01_upd _ _ _ (Inv01_upd _ _ _ (Inv01_upd _ _ _ hcv zero_le_one le_rfl)
      zero_le_one le_rfl) zero_le_one le_rfl

end DotPainter

namespace LinePainter

/-- The mcmc-file `clamp01` lands in `[0,1]` provided its argument does not
exceed 1 (it fails to clamp from above). -/
theorem clamp01_mem_of_le (v : ℝ) (hv : v ≤ 1) : 0 ≤ clamp01 v ∧ clamp01 v ≤ 1 := by
  simp only [clamp01]
  split_ifs with h1 h2
  · exact ⟨le_refl 0, zero_le_one⟩
  · exact ⟨by linarith, hv⟩
  · exact ⟨not_lt.mp h1, hv⟩

/-- The squared point-to-segment distance is nonnegative. -/
theorem line_dist2_nonneg (x1 y1 x2 y2 px py : ℝ) : 0 ≤ line_dist2 x1 y1 x2 y2 px py := by
  obtain ⟨qx, qy, _, _, _, _, h⟩ := line_dist2_repr x1 y1 x2 y2 px py
  rw [h]
  nlinarith [mul_self_nonneg (px - qx), mul_self_nonneg (py - qy)]

/-- Pixel-level line coverage lies in `[0,1]` for nonnegative widths. -/
theorem line_pixel_coverage_mem (x1 y1 x2 y2 w : ℝ) (x0 y0 : ℤ) (hw : 0 ≤ w) :
    0 ≤ line_pixel_coverage x1 y1 x2 y2 w x0 y0 ∧
      line_pixel_coverage x1 y1 x2 y2 w x0 y0 ≤ 1 := by
  simp only [line_pixel_coverage]
  exact line_cov_of_d2_mem w _ hw (line_dist2_nonneg _ _ _ _ _ _)

/-- One pixel step of `composite_line_bbox_cpp` preserves `Inv01` for
nonnegative width, alpha at most 1, and color channels in `[0,1]`. -/
theorem line_draw_pixel_c_inv (H W : ℤ) (x1 y1 x2 y2 w alpha cr cg cb : ℝ) (cv : NVec)
    (y x : ℤ) (hcv : Inv01 cv) (hw : 0 ≤ w) (hal : alpha ≤ 1)
    (hcr : 0 ≤ cr) (hcr1 : cr ≤ 1) (hcg : 0 ≤ cg) (hcg1 : cg ≤ 1)
    (hcb : 0 ≤ cb) (hcb1 : cb ≤ 1) :
    Inv01 (line_draw_pixel_c H W x1 y1 x2 y2 w alpha cr cg cb cv y x) := by
  simp only [line_draw_pixel_c]
  split_ifs with h1 h2 h3
  · exact hcv
  · exact hcv
  · exact hcv
  · push_neg at h2
    obtain ⟨hcovpos, halpos⟩ := h2
    obtain ⟨hcm0, hcm1⟩ := line_pixel_coverage_mem x1 y1 x2 y2 w x y hw
    have hprod : line_pixel_coverage x1 y1 x2 y2 w x y * alpha ≤ 1 := by nlinarith
    obtain ⟨ha0, ha1⟩ := clamp01_mem_of_le _ hprod
    set a := clamp01 (line_pixel_coverage x1 y1 x2 y2 w x y * alpha) with hadef
    have hstep : ∀ (b : NVec) (i : ℤ) (c v : ℝ), Inv01 b → 0 ≤ c → c ≤ 1 →
        0 ≤ v → v ≤ 1 → Inv01 (b.upd i (a * c + (1 - a) * v)) :=
      fun b i c v hb hc0 hc1 hv0 hv1 =>
        Inv01_upd b i _ hb (by nlinarith) (by nlinarith)
    exact hstep _ _ _ _
      (hstep _ _ _ _ (hstep _ _ _ _ hcv hcr hcr1 (hcv _).1 (hcv _).2)
        hcg hcg1 (hcv _).1 (hcv _).2)
      hcb hcb1 (hcv _).1 (hcv _).2

/-- One pixel step of the line render loops preserves `Inv01` under the
same hypotheses (here the three channel writes read the partially updated
buffer sequentially). -/
theorem line_draw_pixel_inv (H W : ℤ) (x1 y1 x2 y2 w alpha cr cg cb : ℝ) (cv : NVec)
    (y x : ℤ) (hcv : Inv01 cv) (hw : 0 ≤ w) (hal : alpha ≤ 1)
    (hcr : 0 ≤ cr) (hcr1 : cr ≤ 1) (hcg : 0 ≤ cg) (hcg1 : cg ≤ 1)
    (hcb : 0 ≤ cb) (hcb1 : cb ≤ 1) :
    Inv01 (line_draw_pixel H W x1 y1 x2 y2 w alpha cr cg cb cv y x) := by
  simp only [line_draw_pixel]
  split_ifs with h1
  · obtain ⟨hcovpos, halpos⟩ := h1
    obtain ⟨hcm0, hcm1⟩ := line_pixel_coverage_mem x1 y1 x2 y2 w x y hw
    have hprod : line_pixel_coverage x1 y1 x2 y2 w x y * alpha ≤ 1 := by nlinarith
    obtain ⟨ha0, ha1⟩ := clamp01_mem_of_le _ hprod
    set a := clamp01 (line_pixel_coverage x1 y1 x2 y2 w x y * alpha) with hadef
    have hstep : ∀ (b : NVec) (i : ℤ) (c : ℝ), Inv01 b → 0 ≤ c → c ≤ 1 →
        Inv01 (b.upd i (a * c + (1 - a) * b.data i)) := fun b i c hb hc0 hc1 =>
      Inv01_upd b i _ hb (by nlinarith [(hb i).1, (hb i).2])
        (by nlinarith [(hb i).1, (hb i).2])
    exact hstep _ _ _ (hstep _ _ _ (hstep _ _ _ hcv hcr hcr1) hcg hcg1) hcb hcb1
  · exact hcv

/-- One reset-to-white pixel step of the line incremental render preserves
`Inv01`. -/
theorem line_reset_pixel_inv (H W : ℤ) (cv : NVec) (y x : ℤ) (hcv : Inv01 cv) :
    Inv01 (line_reset_pixel H W cv y x) := by
  simp only [line_reset_pixel]
  exact Inv01_upd _ _ _ (Inv01_upd _ _ _ (Inv01_upd _ _ _ hcv zero_le_one le_rfl)
    zero_le_one le_rfl) zero_le_one le_rfl

end LinePainter

/-- C5, counterexample to the claim as stated.  All samples of the input
canvas are in `[0,1]`, the line's alpha is `9/10 ∈ (0,1)` and its color is
`(1,1,1) ∈ [0,1]³`, yet compositing the (degenerate, negative-width
`w = -4`) line `(1/2,3/2)-(1/2,3/2)` over the single-pixel box
`(2,2)-(2,2)` of a 2x2 canvas drives a sample to `3/2 > 1`: the capsule
coverage evaluates to `5/3`, and the mcmc-file `clamp01` fails to clamp
`5/3 * 9/10 = 3/2` from above. -/
theorem C5_counterexample :
    Inv01 zero22 ∧
    ¬ Inv01 (LinePainter.composite_line_bbox_cpp zero22 2 2 (1 / 2) (3 / 2) (1 / 2) (3 / 2)
      (-4) (9 / 10) (1, 1, 1) 2 2 2 2) := by
  have hz : Inv01 zero22 := fun i => by norm_num [zero22]
  refine ⟨hz, fun hinv => ?_⟩
  have hrange : intRange 2 2 = [2] := by decide
  have hdist : LinePainter.line_dist2 (1 / 2) (3 / 2) (1 / 2) (3 / 2)
      (((2 : ℤ) : ℝ) - 0.5) (((2 : ℤ) : ℝ) - 0.5) = 1 := by
    simp only [LinePainter.line_dist2]
    norm_num
  have hcov : LinePainter.line_pixel_coverage (1 / 2) (3 / 2) (1 / 2) (3 / 2) (-4) 2 2 =
      5 / 3 := by
    simp only [LinePainter.line_pixel_coverage, hdist, LinePainter.line_cov_of_d2]
    rw [Real.sqrt_one]
    norm_num
  have hclamp : LinePainter.clamp01 (5 / 3 * (9 / 10)) = 3 / 2 := by
    simp only [LinePainter.clamp01]
    norm_num
  have heval : (LinePainter.composite_line_bbox_cpp zero22 2 2 (1 / 2) (3 / 2) (1 / 2)
      (3 / 2) (-4) (9 / 10) (1, 1, 1) 2 2 2 2).data 0 = 3 / 2 := by
    simp only [LinePainter.composite_line_bbox_cpp, hrange, List.foldl_cons, List.foldl_nil,
      LinePainter.line_draw_pixel_c, idx3, zero22, hcov, hclamp]
    norm_num [NVec.upd]
  have h := (hinv 0).2
  rw [heval] at h
  norm_num at h

set_option maxHeartbeats 1000000 in
/-- C5, amended.  If every sample of the canvas buffer is in `[0,1]`, every
primitive has alpha in `(0,1)` and color channels in `[0,1]`, and — the
amendment the counterexample forces — every line width is nonnegative, then
after any compositing or rendering operation (`composite_dot_bbox_cpp`,
`composite_line_bbox_cpp`, and the full/incremental render functions of
both files) every canvas sample is still in `[0,1]`. -/
theorem C5_amended (cv : NVec) (H W : ℤ) (x y radius alpha : ℝ) (col : ℝ × ℝ × ℝ)
    (x1 y1 x2 y2 w alpha2 : ℝ) (col2 : ℝ × ℝ × ℝ) (xmin xmax ymin ymax : ℤ)
    (dots : List DotPainter.Dot) (lines : List LinePainter.Line)
    (hcv : Inv01 cv)
    (ha0 : 0 < alpha) (ha1 : alpha < 1)
    (hc1 : 0 ≤ col.1) (hc2 : col.1 ≤ 1) (hc3 : 0 ≤ col.2.1) (hc4 : col.2.1 ≤ 1)
    (hc5 : 0 ≤ col.2.2) (hc6 : col.2.2 ≤ 1)
    (hb0 : 0 < alpha2) (hb1 : alpha2 < 1) (hw : 0 ≤ w)
    (hd1 : 0 ≤ col2.1) (hd2 : col2.1 ≤ 1) (hd3 : 0 ≤ col2.2.1) (hd4 : col2.2.1 ≤ 1)
    (hd5 : 0 ≤ col2.2.2) (hd6 : col2.2.2 ≤ 1)
    (hdots : ∀ d ∈ dots, DotPainter.DotOK d)
    (hlines : ∀ l ∈ lines, LinePainter.LineOK l) :
    Inv01 (DotPainter.composite_dot_bbox_cpp cv H W x y radius alpha col
      xmin xmax ymin ymax) ∧
    Inv01 (LinePainter.composite_line_bbox_cpp cv H W x1 y1 x2 y2 w alpha2 col2
      xmin xmax ymin ymax) ∧
    Inv01 (DotPainter.re_render_bbox_from_dots_cpp cv dots H W xmin xmax ymin ymax) ∧
    Inv01 (DotPainter.render_full_canvas_from_dots_cpp cv dots H W) ∧
    Inv01 (LinePainter.re_render_bbox_from_lines_cpp cv lines xmin xmax ymin ymax H W) ∧
    Inv01 (LinePainter.render_full_canvas_cpp lines H W) := by
  refine ⟨?_, ?_, ?_, ?_, ?_, ?_⟩
  · -- composite_dot_bbox_cpp
    simp only [DotPainter.composite_dot_bbox_cpp]
    refine foldl_inv _ _ _ _ (fun yy _ b hb => ?_) hcv
    refine foldl_inv _ _ _ _ (fun xx _ b2 hb2 => ?_) hb
    exact DotPainter.dot_draw_pixel_inv _ _ _ _ _ _ _ _ _ _ _ _ hb2 hc1 hc2 hc3 hc4 hc5 hc6
  · -- composite_line_bbox_cpp
    simp only [LinePainter.composite_line_bbox_cpp]
    refine foldl_inv _ _ _ _ (fun yy _ b hb => ?_) hcv
    refine foldl_inv _ _ _ _ (fun xx _ b2 hb2 => ?_) hb
    exact LinePainter.line_draw_pixel_c_inv _ _ _ _ _ _ _ _ _ _ _ _ _ _ hb2 hw hb1.le
      hd1 hd2 hd3 hd4 hd5 hd6
  · -- re_render_bbox_from_dots_cpp
    simp only [DotPainter.re_render_bbox_from_dots_cpp]
    have hreset : Inv01 ((intRange ymin ymax).foldl (fun cva yy =>
        (intRange xmin xmax).foldl (fun cvb xx => DotPainter.dot_reset_pixel H W cvb yy xx)
          cva) cv) := by
      refine foldl_inv _ _ _ _ (fun yy _ b hb => ?_) hcv
      refine foldl_inv _ _ _ _ (fun xx _ b2 hb2 => ?_) hb
      exact DotPainter.dot_reset_pixel_inv _ _ _ _ _ hb2
    refine foldl_inv _ _ _ _ (fun d hdm b hb => ?_) hreset
    obtain ⟨_, _, he1, he2, he3, he4, he5, he6⟩ := hdots d hdm
    split_ifs with hskip
    · exact hb
    · refine foldl_inv _ _ _ _ (fun yy _ b2 hb2 => ?_) hb
      refine foldl_inv _ _ _ _ (fun xx _ b3 hb3 => ?_) hb2
      exact DotPainter.dot_draw_pixel_inv _ _ _ _ _ _ _ _ _ _ _ _ hb3 he1 he2 he3 he4 he5 he6
  · -- render_full_canvas_from_dots_cpp
    simp only [DotPainter.render_full_canvas_from_dots_cpp]
    have hwhite : Inv01 (⟨cv.len, fun i => if 0 ≤ i ∧ i < cv.len then 1 else cv.data i⟩ :
        NVec) := by
      intro i
      have h : ((⟨cv.len, fun i => if 0 ≤ i ∧ i < cv.len then 1 else cv.data i⟩ :
          NVec)).data i = if 0 ≤ i ∧ i < cv.len then 1 else cv.data i := rfl
      rw [h]
      split_ifs
      · exact ⟨zero_le_one, le_rfl⟩
      · exact hcv i
    refine foldl_inv _ _ _ _ (fun d hdm b hb => ?_) hwhite
    obtain ⟨_, _, he1, he2, he3, he4, he5, he6⟩ := hdots d hdm
    refine foldl_inv _ _ _ _ (fun yy _ b2 hb2 => ?_) hb
    refine foldl_inv _ _ _ _ (fun xx _ b3 hb3 => ?_) hb2
    exact DotPainter.dot_draw_pixel_inv _ _ _ _ _ _ _ _ _ _ _ _ hb3 he1 he2 he3 he4 he5 he6
  · -- re_render_bbox_from_lines_cpp
    simp only [LinePainter.re_render_bbox_from_lines_cpp]
    have hreset : Inv01 ((intRange ymin ymax).foldl (fun cva yy =>
        (intRange xmin xmax).foldl (fun cvb xx => LinePainter.line_reset_pixel H W cvb yy xx)
          cva) cv) := by
      refine foldl_inv _ _ _ _ (fun yy _ b hb => ?_) hcv
      refine foldl_inv _ _ _ _ (fun xx _ b2 hb2 => ?_) hb
      exact LinePainter.line_reset_pixel_inv _ _ _ _ _ hb2
    refine foldl_inv _ _ _ _ (fun l hlm b hb => ?_) hreset
    obtain ⟨hlw, _, hla1, he1, he2, he3, he4, he5, he6⟩ := hlines l hlm
    split_ifs with hskip
    · exact hb
    · refine foldl_inv _ _ _ _ (fun yy _ b2 hb2 => ?_) hb
      refine foldl_inv _ _ _ _ (fun xx _ b3 hb3 => ?_) hb2
      exact LinePainter.line_draw_pixel_inv _ _ _ _ _ _ _ _ _ _ _ _ _ _ hb3 hlw hla1.le
        he1 he2 he3 he4 he5 he6
  · -- render_full_canvas_cpp
    simp only [LinePainter.render_full_canvas_cpp]
    have hwhite : Inv01 (⟨H * W * 3, fun i => if 0 ≤ i ∧ i < H * W * 3 then 1 else 0⟩ :
        NVec) := by
      intro i
      have h : ((⟨H * W * 3, fun i => if 0 ≤ i ∧ i < H * W * 3 then 1 else 0⟩ :
          NVec)).data i = if 0 ≤ i ∧ i < H * W * 3 then 1 else 0 := rfl
      rw [h]
      split_ifs
      · exact ⟨zero_le_one, le_rfl⟩
      · exact ⟨le_rfl, zero_le_one⟩
    refine foldl_inv _ _ _ _ (fun l hlm b hb => ?_) hwhite
    obtain ⟨hlw, _, hla1, he1, he2, he3, he4, he5, he6⟩ := hlines l hlm
    refine foldl_inv _ _ _ _ (fun yy _ b2 hb2 => ?_) hb
    refine foldl_inv _ _ _ _ (fun xx _ b3 hb3 => ?_) hb2
    exact LinePainter.line_draw_pixel_inv _ _ _ _ _ _ _ _ _ _ _ _ _ _ hb3 hlw hla1.le
      he1 he2 he3 he4 he5 he6

/-- Witness for `C5_amended` at a concrete canvas and primitives. -/
theorem C5_amended_witness :
    Inv01 (DotPainter.composite_dot_bbox_cpp zero22 2 2 0 0 0 (1 / 2) (0, 0, 0) 1 1 1 1) :=
  (C5_amended zero22 2 2 0 0 0 (1 / 2) (0, 0, 0) 0 0 0 0 0 (1 / 2) (0, 0, 0) 1 1 1 1 [] []
    (fun i => by norm_num [zero22]) (by norm_num) (by norm_num) (by norm_num) (by norm_num)
    (by norm_num) (by norm_num) (by norm_num) (by norm_num) (by norm_num) (by norm_num)
    le_rfl (by norm_num) (by norm_num) (by norm_num) (by norm_num) (by norm_num)
    (by norm_num) (fun d hd => absurd hd (List.not_mem_nil d))
    (fun l hl => absurd hl (List.not_mem_nil l))).1

/-! SSE (claims C6 and C7). -/

/-- Membership in a C loop range. -/
theorem mem_intRange {a b i : ℤ} : i ∈ intRange a b ↔ a ≤ i ∧ i ≤ b := by
  unfold intRange
  rw [List.mem_map]
  constructor
  · rintro ⟨n, hn, rfl⟩
    rw [List.mem_range] at hn
    omega
  · rintro ⟨h1, h2⟩
    refine ⟨(i - a).toNat, ?_, by omega⟩
    rw [List.mem_range]
    omega

/-- `idx3` lands inside a length-`H*W*3` buffer for 1-based in-canvas
coordinates and a channel in `{0,1,2}`. -/
theorem idx3_bounds {y x c H W : ℤ} (hy1 : 1 ≤ y) (hyH : y ≤ H) (hx1 : 1 ≤ x)
    (hxW : x ≤ W) (hc0 : 0 ≤ c) (hc2 : c ≤ 2) :
    0 ≤ idx3 y x c H W ∧ idx3 y x c H W < H * W * 3 := by
  unfold idx3
  have hH : 0 < H := by omega
  have hW : 0 < W := by omega
  constructor
  · have h1 : 0 ≤ (x - 1) * H := mul_nonneg (by omega) (by omega)
    have h2 : 0 ≤ c * (H * W) := mul_nonneg hc0 (mul_nonneg (by omega) (by omega))
    omega
  · have h1 : (x - 1) * H ≤ (W - 1) * H := mul_le_mul_of_nonneg_right (by omega) (by omega)
    have h2 : c * (H * W) ≤ 2 * (H * W) := mul_le_mul_of_nonneg_right hc2
      (mul_nonneg (by omega) (by omega))
    nlinarith

/-- C6, failing-input evaluation.  On a 2x2 canvas with
`target = canvas = 0` except `target` sample 0 (pixel `(1,1)`, channel 0)
equal to 1, the SSE of the single-pixel rectangle `(1,1)-(1,1)` is 1 — and
`sse_bbox_cpp` returns exactly that — but `sse_bbox_dots_cpp` returns 0:
it hands the already 0-based coordinates to `idx3`, which shifts every read
one pixel up-left (sample indices `4c - 3` here), skipping the negative one
and reading two samples of pixel `(2,1)` instead of pixel `(1,1)`. -/
theorem C6_failing_input_eval :
    DotPainter.sse_bbox_dots_cpp target22 canvas22 2 2 1 1 1 1 = 0 ∧
    LinePainter.sse_bbox_cpp target22 canvas22 2 2 1 1 1 1 = 1 := by
  have hr1 : intRange 1 1 = [1] := by decide
  have hr02 : intRange 0 2 = [0, 1, 2] := by decide
  constructor
  · simp only [DotPainter.sse_bbox_dots_cpp, hr1, hr02, List.foldl_cons, List.foldl_nil,
      idx3, target22, canvas22]
    norm_num
  · simp only [LinePainter.sse_bbox_cpp, hr1, List.foldl_cons, List.foldl_nil,
      idx3, target22, canvas22]
    norm_num

/-- C7, counterexample to the claim as stated.  For the rectangle
`x ∈ [2,2], y ∈ [1,1]`, which lies outside a 1x1 canvas, `sse_bbox_cpp`
dereferences index 3 of buffers that hold only `H*W*3 = 3` samples: its
read set is not contained in the buffers, because it performs no bounds
checks at all. -/
theorem C7_counterexample :
    (3 : ℤ) ∈ LinePainter.sse_bbox_reads 1 1 2 2 1 1 ∧ ¬((3 : ℤ) < 1 * 1 * 3) := by
  decide

/-- C7, amended: `sse_bbox_dots_cpp` reads only indices that lie within
both buffers, for every rectangle (its guards make the out-of-bounds branch
unreachable and silently skip out-of-canvas pixels); `sse_bbox_cpp` does so
only provided the rectangle lies within the canvas bounds.  (Both are
modelled as pure functions returning a scalar: neither mutates a buffer.) -/
theorem C7_amended :
    (∀ tlen clen H W xmin xmax ymin ymax : ℤ,
      ∀ i ∈ DotPainter.sse_bbox_dots_reads tlen clen H W xmin xmax ymin ymax,
        0 ≤ i ∧ i < tlen ∧ i < clen) ∧
    (∀ H W xmin xmax ymin ymax : ℤ, 1 ≤ xmin → xmax ≤ W → 1 ≤ ymin → ymax ≤ H →
      ∀ i ∈ LinePainter.sse_bbox_reads H W xmin xmax ymin ymax,
        0 ≤ i ∧ i < H * W * 3) := by
  constructor
  · intro tlen clen H W xmin xmax ymin ymax i hi
    simp only [DotPainter.sse_bbox_dots_reads, List.mem_flatMap] at hi
    obtain ⟨y, _, hi⟩ := hi
    obtain ⟨x, _, hi⟩ := hi
    split_ifs at hi with h1
    · simp at hi
    · simp only [List.mem_flatMap] at hi
      obtain ⟨c, _, hi⟩ := hi
      split_ifs at hi with h2
      · simp at hi
      · push_neg at h2
        simp only [List.mem_singleton] at hi
        subst hi
        exact ⟨h2.1, h2.2.1, h2.2.2⟩
  · intro H W xmin xmax ymin ymax h1 h2 h3 h4 i hi
    simp only [LinePainter.sse_bbox_reads, List.mem_flatMap] at hi
    obtain ⟨y, hy, hi⟩ := hi
    obtain ⟨x, hx, hi⟩ := hi
    rw [mem_intRange] at hy hx
    simp only [List.mem_cons, List.not_mem_nil, or_false] at hi
    rcases hi with rfl | rfl | rfl
    · exact idx3_bounds (by omega) (by omega) (by omega) (by omega) (by omega) (by omega)
    · exact idx3_bounds (by omega) (by omega) (by omega) (by omega) (by omega) (by omega)
    · exact idx3_bounds (by omega) (by omega) (by omega) (by omega) (by omega) (by omega)

/-- Witness for `C7_amended` at concrete rectangles. -/
theorem C7_amended_witness :
    ((0 : ℤ) ≤ 0 ∧ (0 : ℤ) < 3 ∧ (0 : ℤ) < 3) ∧ ((0 : ℤ) ≤ 0 ∧ (0 : ℤ) < 1 * 1 * 3) :=
  ⟨C7_amended.1 3 3 1 1 1 1 1 1 0 (by decide),
   C7_amended.2 1 1 1 1 1 1 le_rfl le_rfl le_rfl le_rfl 0 (by decide)⟩

/-! Incremental vs full rendering (claims C1 and C2). -/

/-- C1, failing-input evaluation.  With the empty dot list, a 4x4 base
canvas whose every sample is 0.3, and the in-bounds rectangle
`x ∈ [2,3], y ∈ [2,3]`: a full render paints everything white, so pixel
`(3,3)` (inside the rectangle; its channel-0 sample is `idx3 3 3 0 4 4 =
10`) reads 1.0 — but the incremental re-render leaves it at 0.3, because
its reset loop hands already 0-based coordinates to `idx3` and therefore
whitens the samples of pixels `(1,1)-(2,2)` instead of the rectangle
`(2,2)-(3,3)`.  The two renders disagree inside the rectangle. -/
theorem C1_failing_input_eval :
    (DotPainter.re_render_bbox_from_dots_cpp base44 [] 4 4 2 3 2 3).data 10 = 3 / 10 ∧
    (DotPainter.render_full_canvas_from_dots_cpp base44 [] 4 4).data 10 = 1 := by
  have hr : intRange 2 3 = [2, 3] := by decide
  constructor
  · simp only [DotPainter.re_render_bbox_from_dots_cpp, hr, List.foldl_cons, List.foldl_nil,
      DotPainter.dot_reset_pixel, idx3, base44]
    norm_num [NVec.upd]
  · simp only [DotPainter.render_full_canvas_from_dots_cpp, List.foldl_nil, base44]
    norm_num

/-- C2, failing-input evaluation.  Same input as `C1_failing_input_eval`:
pixel `(1,1)` lies outside the rectangle `x ∈ [2,3], y ∈ [2,3]`, yet the
incremental re-render overwrites its channel-0 sample (index 0) with white,
because the reset loop's shifted indexing maps rectangle pixel `(2,2)` to
sample 0.  A sample outside the target rectangle changes. -/
theorem C2_failing_input_eval :
    base44.data 0 = 3 / 10 ∧
    (DotPainter.re_render_bbox_from_dots_cpp base44 [] 4 4 2 3 2 3).data 0 = 1 := by
  have hr : intRange 2 3 = [2, 3] := by decide
  constructor
  · norm_num [base44]
  · simp only [DotPainter.re_render_bbox_from_dots_cpp, hr, List.foldl_cons, List.foldl_nil,
      DotPainter.dot_reset_pixel, idx3, base44]
    norm_num [NVec.upd]

/-! Canvas-independence of full rendering (claim C10). -/

/-- A fold preserves any binary relation its step preserves. -/
theorem foldl_rel {α β : Type} (R : α → α → Prop) (f : α → β → α) (l : List β) :
    ∀ a b, (∀ x ∈ l, ∀ a b, R a b → R (f a x) (f b x)) → R a b →
      R (l.foldl f a) (l.foldl f b) := by
  induction l with
  | nil => intro a b _ h; exact h
  | cons x xs ih =>
    intro a b hstep h
    simp only [List.foldl_cons]
    exact ih _ _ (fun z hz => hstep z (List.mem_cons_of_mem x hz))
      (hstep x (List.mem_cons_self x xs) a b h)

namespace DotPainter

/-- Drawing one dot pixel sends `Agree`-ing length-`n` buffers to
`Agree`-ing buffers: the branch conditions depend only on the geometry and
on the (equal) lengths, and the written values read only stored samples. -/
theorem dot_draw_pixel_agree (n H W : ℤ) (x y radius alpha cr cg cb : ℝ) (a b : NVec)
    (y0 x0 : ℤ) (h : Agree n a b) :
    Agree n (dot_draw_pixel H W x y radius alpha cr cg cb a y0 x0)
      (dot_draw_pixel H W x y radius alpha cr cg cb b y0 x0) := by
  obtain ⟨hla, hlb, hd⟩ := h
  simp only [dot_draw_pixel]
  rw [hla, hlb]
  split_ifs with h1 h2 h3
  · exact ⟨hla, hlb, hd⟩
  · exact ⟨hla, hlb, hd⟩
  · exact ⟨hla, hlb, hd⟩
  · push_neg at h3
    obtain ⟨hi0a, hi0b, hi1a, hi1b, hi2a, hi2b⟩ := h3
    have e0 := hd _ hi0a hi0b
    have e1 := hd _ hi1a hi1b
    have e2 := hd _ hi2a hi2b
    refine ⟨by simp [NVec.upd, hla], by simp [NVec.upd, hlb], fun j hj0 hjn => ?_⟩
    simp only [NVec.upd, e0, e1, e2, hd j hj0 hjn]

end DotPainter

/-- C10, confirmed (dot pipeline): the output of
`render_full_canvas_from_dots_cpp` does not depend on the contents of the
supplied canvas buffer — for any two input buffers of length `H*W*3` and
any dot list, every stored sample of the two results is identical (the
function first resets every sample to 1.0 and all subsequent reads are
bounds-checked).  `render_full_canvas_cpp` is modelled, as in the source,
without any input canvas at all: it allocates a fresh white buffer. -/
theorem C10_theorem (H W : ℤ) (dots : List DotPainter.Dot) (c1 c2 : NVec)
    (h1 : c1.len = H * W * 3) (h2 : c2.len = H * W * 3) (i : ℤ) (hi0 : 0 ≤ i)
    (hi : i < H * W * 3) :
    (DotPainter.render_full_canvas_from_dots_cpp c1 dots H W).data i =
      (DotPainter.render_full_canvas_from_dots_cpp c2 dots H W).data i := by
  simp only [DotPainter.render_full_canvas_from_dots_cpp]
  have hwhite : Agree (H * W * 3)
      (⟨c1.len, fun j => if 0 ≤ j ∧ j < c1.len then 1 else c1.data j⟩ : NVec)
      (⟨c2.len, fun j => if 0 ≤ j ∧ j < c2.len then 1 else c2.data j⟩ : NVec) := by
    refine ⟨h1, h2, fun j hj0 hjn => ?_⟩
    show (if 0 ≤ j ∧ j < c1.len then (1 : ℝ) else c1.data j) =
      (if 0 ≤ j ∧ j < c2.len then 1 else c2.data j)
    rw [h1, h2, if_pos ⟨hj0, hjn⟩, if_pos ⟨hj0, hjn⟩]
  refine (foldl_rel (Agree (H * W * 3)) _ dots _ _ (fun d _ a b hab => ?_)
    hwhite).2.2 i hi0 hi
  refine foldl_rel (Agree (H * W * 3)) _ _ _ _ (fun yy _ a2 b2 hab2 => ?_) hab
  refine foldl_rel (Agree (H * W * 3)) _ _ _ _ (fun xx _ a3 b3 hab3 => ?_) hab2
  exact DotPainter.dot_draw_pixel_agree _ _ _ _ _ _ _ _ _ _ _ _ _ _ hab3

/-- Witness for `C10_theorem` with two different concrete input buffers. -/
theorem C10_theorem_witness :
    (DotPainter.render_full_canvas_from_dots_cpp ⟨3, fun _ => 0⟩ [] 1 1).data 0 =
      (DotPainter.render_full_canvas_from_dots_cpp ⟨3, fun _ => 1 / 2⟩ [] 1 1).data 0 :=
  C10_theorem 1 1 [] ⟨3, fun _ => 0⟩ ⟨3, fun _ => 1 / 2⟩ (by norm_num) (by norm_num) 0
    le_rfl (by norm_num)

/-! Residual-driven seed selection on the 4x4 scenario (claim C9). -/

/-- Residual magnitudes of the 4x4 scenario: zero everywhere except
`sqrt 2` at flat pixel index 5, which is pixel `(2,2)`. -/
theorem residual_mags_44 :
    residual_mags target44 canvas44 4 4 =
      [0, 0, 0, 0, 0, Real.sqrt 2, 0, 0, 0, 0, 0, 0, 0, 0, 0, 0] := by
  have hr02 : intRange 0 2 = [0, 1, 2] := by decide
  have h16 : ((4 : ℤ) * 4).toNat = 16 := by decide
  have hrange : List.range 16 = [0, 1, 2, 3, 4, 5, 6, 7, 8, 9, 10, 11, 12, 13, 14, 15] := rfl
  simp only [residual_mags, h16, hrange, hr02, List.map_cons, List.map_nil,
    List.foldl_cons, List.foldl_nil, target44, canvas44]
  norm_num [Real.sqrt_zero]

/-- The maximum of the 4x4 scenario's magnitude list. -/
theorem max_mag_sqrt2 :
    max_mag [0, 0, 0, 0, 0, Real.sqrt 2, 0, 0, 0, 0, 0, 0, 0, 0, 0, 0] = Real.sqrt 2 := by
  have hpos : (0 : ℝ) < Real.sqrt 2 := Real.sqrt_pos.mpr (by norm_num)
  simp only [max_mag, List.foldl_cons, List.foldl_nil, gt_iff_lt, lt_self_iff_false,
    hpos, (Real.sqrt_nonneg 2).not_lt, if_true, if_false]

/-- The normalized weights of the 4x4 scenario. -/
theorem ws_44 :
    (residual_mags target44 canvas44 4 4).map
      (fun v => v / max_mag (residual_mags target44 canvas44 4 4)) =
      [0, 0, 0, 0, 0, 1, 0, 0, 0, 0, 0, 0, 0, 0, 0, 0] := by
  have hne : Real.sqrt 2 ≠ 0 := ne_of_gt (Real.sqrt_pos.mpr (by norm_num))
  rw [residual_mags_44, max_mag_sqrt2]
  simp only [List.map_cons, List.map_nil, zero_div, div_self hne]

/-- The total weight of the 4x4 scenario is 1. -/
theorem total_44 : birth_total_weight target44 canvas44 4 4 = 1 := by
  rw [birth_total_weight, ws_44]
  norm_num

/-- First crossing of the unit-weight-at-5 list at a threshold in `(0,1]`
is index 5. -/
theorem fc_unit5 (r : ℝ) (h0 : 0 < r) (h1 : r ≤ 1) :
    first_crossing [0, 0, 0, 0, 0, 1, 0, 0, 0, 0, 0, 0, 0, 0, 0, 0] r = 5 := by
  simp only [first_crossing, first_crossing_go]
  norm_num
  split_ifs <;> first | (exfalso; linarith) | norm_num

/-- First crossing at threshold 0 fires immediately at index 0: the running
sum 0 already satisfies `cumsum >= r`. -/
theorem fc_unit5_zero :
    first_crossing [0, 0, 0, 0, 0, 1, 0, 0, 0, 0, 0, 0, 0, 0, 0, 0] 0 = 0 := by
  simp only [first_crossing, first_crossing_go]
  norm_num

/-- `sqrt 2` does not trip the `1e-6` uniform-fallback test. -/
theorem sqrt2_big : ¬ (Real.sqrt 2 < 1e-6) := by
  have h : (1 : ℝ) ≤ Real.sqrt 2 := by
    rw [show (1 : ℝ) = Real.sqrt 1 from (Real.sqrt_one).symm]
    exact Real.sqrt_le_sqrt (by norm_num)
  push_neg
  calc (1e-6 : ℝ) ≤ 1 := by norm_num
  _ ≤ Real.sqrt 2 := h

/-- Seed selection on the 4x4 scenario for a threshold in `(0,1]`. -/
theorem seed_44 (u_fx u_fy r : ℝ) (h0 : 0 < r) (h1 : r ≤ 1) :
    birth_seed_xy target44 canvas44 4 4 u_fx u_fy r = (2, 2) := by
  simp only [birth_seed_xy, residual_mags_44, max_mag_sqrt2]
  rw [if_neg sqrt2_big]
  rw [show ([0, 0, 0, 0, 0, Real.sqrt 2, 0, 0, 0, 0, 0, 0, 0, 0, 0, 0].map
    (fun v => v / Real.sqrt 2)) = [0, 0, 0, 0, 0, 1, 0, 0, 0, 0, 0, 0, 0, 0, 0, 0] from by
    have hne : Real.sqrt 2 ≠ 0 := ne_of_gt (Real.sqrt_pos.mpr (by norm_num))
    simp only [List.map_cons, List.map_nil, zero_div, div_self hne]]
  rw [fc_unit5 r h0 h1]
  norm_num

/-- Seed selection on the 4x4 scenario at threshold 0 picks pixel (1,1). -/
theorem seed_44_zero (u_fx u_fy : ℝ) :
    birth_seed_xy target44 canvas44 4 4 u_fx u_fy 0 = (1, 1) := by
  simp only [birth_seed_xy, residual_mags_44, max_mag_sqrt2]
  rw [if_neg sqrt2_big]
  rw [show ([0, 0, 0, 0, 0, Real.sqrt 2, 0, 0, 0, 0, 0, 0, 0, 0, 0, 0].map
    (fun v => v / Real.sqrt 2)) = [0, 0, 0, 0, 0, 1, 0, 0, 0, 0, 0, 0, 0, 0, 0, 0] from by
    have hne : Real.sqrt 2 ≠ 0 := ne_of_gt (Real.sqrt_pos.mpr (by norm_num))
    simp only [List.map_cons, List.map_nil, zero_div, div_self hne]]
  rw [fc_unit5_zero]
  norm_num

/-- C9, counterexample to the claim as stated.  On the 4x4 scenario the
total weight is 1, and the claim quantifies the threshold over
`[0, total_weight)`, including 0 — but at threshold 0 the first-crossing
loop stops at the very first pixel (`cumsum = 0 >= 0`), selecting pixel
`(1,1)`, not the unique nonzero-residual pixel `(2,2)`. -/
theorem C9_counterexample :
    birth_total_weight target44 canvas44 4 4 = 1 ∧
    birth_seed_xy target44 canvas44 4 4 2 2 0 = (1, 1) ∧
    ((1 : ℝ), (1 : ℝ)) ≠ ((2 : ℝ), (2 : ℝ)) :=
  ⟨total_44, seed_44_zero 2 2, by norm_num [Prod.ext_iff]⟩

/-- C9, amended.  On the 4x4 scenario (all-white target and canvas except
target pixel `(2,2)` pure red), the residual-driven birth samplers select
seed pixel `(2,2)` for every threshold in the half-open interval
`(0, total_weight]` — not `[0, total_weight)`: at threshold exactly 0 the
first-crossing loop returns the first pixel instead.  `birth_seed_xy` is
the seed-selection code shared by `sample_dot_birth_datadriven_cpp` and
`sample_line_birth_datadriven_cpp`; the dot sampler returns the seed as its
center. -/
theorem C9_amended (u_fx u_fy r n_rad b_a u_in0 u_in1 u_in2 u_e0 n_e1 u_e2 : ℝ)
    (h0 : 0 < r) (h1 : r ≤ 1) :
    birth_total_weight target44 canvas44 4 4 = 1 ∧
    birth_seed_xy target44 canvas44 4 4 u_fx u_fy r = (2, 2) ∧
    (DotPainter.sample_dot_birth_datadriven_cpp target44 canvas44 4 4 u_fx u_fy r
      n_rad b_a u_in0 u_in1 u_in2 u_e0 n_e1 u_e2).x = 2 ∧
    (DotPainter.sample_dot_birth_datadriven_cpp target44 canvas44 4 4 u_fx u_fy r
      n_rad b_a u_in0 u_in1 u_in2 u_e0 n_e1 u_e2).y = 2 := by
  have hseed := seed_44 u_fx u_fy r h0 h1
  refine ⟨total_44, hseed, ?_, ?_⟩
  · simp [DotPainter.sample_dot_birth_datadriven_cpp, hseed]
  · simp [DotPainter.sample_dot_birth_datadriven_cpp, hseed]

/-- Witness for `C9_amended` at threshold 1. -/
theorem C9_amended_witness :
    birth_seed_xy target44 canvas44 4 4 2 2 1 = (2, 2) :=
  (C9_amended 2 2 1 0 0 0 0 0 0 0 0 (by norm_num) le_rfl).2.1

/-! Sampler output domains (claim C8). -/

/-- The first-crossing loop either leaves the index at its initial 0 or
stops at one of the traversed positions. -/
theorem first_crossing_go_bounds (ws : List ℝ) :
    ∀ (r c : ℝ) (i : ℤ), first_crossing_go ws r c i = 0 ∨
      (i ≤ first_crossing_go ws r c i ∧
        first_crossing_go ws r c i < i + (ws.length : ℤ)) := by
  induction ws with
  | nil => intro r c i; left; rfl
  | cons v rest ih =>
    intro r c i
    simp only [first_crossing_go]
    split_ifs with h
    · right
      refine ⟨le_rfl, ?_⟩
      simp only [List.length_cons]
      push_cast
      omega
    · rcases ih r (c + v) (i + 1) with h0 | ⟨ha, hb⟩
      · left; exact h0
      · right
        simp only [List.length_cons] at hb ⊢
        push_cast at hb ⊢
        omega

/-- The selected index lies in `[0, length)` for nonempty weight lists. -/
theorem first_crossing_bounds (ws : List ℝ) (r : ℝ) (hlen : 1 ≤ ws.length) :
    0 ≤ first_crossing ws r ∧ first_crossing ws r < (ws.length : ℤ) := by
  unfold first_crossing
  rcases first_crossing_go_bounds ws r 0 0 with h | ⟨h1, h2⟩
  · rw [h]
    constructor
    · exact le_rfl
    · exact_mod_cast hlen
  · exact ⟨h1, by simpa using h2⟩

/-- Truncation toward zero agrees with the floor on nonnegative values. -/
theorem trunc_of_nonneg (v : ℝ) (h : 0 ≤ v) : trunc v = ⌊v⌋ :=
  if_neg (not_lt.mpr h)

/-- The seed pixel returned by `birth_seed_xy` lies in `[1,W] × [1,H]` for
any threshold, provided the uniform fallback draws do. -/
theorem birth_seed_xy_bounds (target canvas : NVec) (H W : ℤ) (u_fx u_fy r : ℝ)
    (hW : 1 ≤ W) (hH : 1 ≤ H) (h1 : 1 ≤ u_fx) (h2 : u_fx ≤ (W : ℝ))
    (h3 : 1 ≤ u_fy) (h4 : u_fy ≤ (H : ℝ)) :
    (1 ≤ (birth_seed_xy target canvas H W u_fx u_fy r).1 ∧
      (birth_seed_xy target canvas H W u_fx u_fy r).1 ≤ (W : ℝ)) ∧
    (1 ≤ (birth_seed_xy target canvas H W u_fx u_fy r).2 ∧
      (birth_seed_xy target canvas H W u_fx u_fy r).2 ≤ (H : ℝ)) := by
  simp only [birth_seed_xy]
  split_ifs with h
  · exact ⟨⟨h1, h2⟩, h3, h4⟩
  · have hHW : (0 : ℤ) < H * W := mul_pos (by omega) (by omega)
    have hlen : ((residual_mags target canvas H W).map
        (fun v => v / max_mag (residual_mags target canvas H W))).length =
        (H * W).toNat := by
      simp only [List.length_map, residual_mags, List.length_range]
    obtain ⟨hi0, hi1⟩ := first_crossing_bounds ((residual_mags target canvas H W).map
      (fun v => v / max_mag (residual_mags target canvas H W))) r (by omega)
    rw [hlen] at hi1
    have hi1' : first_crossing ((residual_mags target canvas H W).map
        (fun v => v / max_mag (residual_mags target canvas H W))) r < H * W := by
      omega
    set idx := first_crossing ((residual_mags target canvas H W).map
      (fun v => v / max_mag (residual_mags target canvas H W))) r with hidx
    have hcomm : H * W = W * H := mul_comm H W
    have hqW : idx / H < W := by
      rw [Int.ediv_lt_iff_lt_mul (by omega : (0 : ℤ) < H)]
      omega
    have hq0 : 0 ≤ idx / H := Int.ediv_nonneg hi0 (by omega)
    have hm0 := Int.emod_nonneg idx (show H ≠ 0 by omega)
    have hmH := Int.emod_lt_of_pos idx (show (0 : ℤ) < H by omega)
    refine ⟨⟨?_, ?_⟩, ?_, ?_⟩
    · show (1 : ℝ) ≤ ((idx / H + 1 : ℤ) : ℝ)
      exact_mod_cast (by omega : (1 : ℤ) ≤ idx / H + 1)
    · show ((idx / H + 1 : ℤ) : ℝ) ≤ (W : ℝ)
      exact_mod_cast (by omega : idx / H + 1 ≤ W)
    · show (1 : ℝ) ≤ ((idx % H + 1 : ℤ) : ℝ)
      exact_mod_cast (by omega : (1 : ℤ) ≤ idx % H + 1)
    · show ((idx % H + 1 : ℤ) : ℝ) ≤ (H : ℝ)
      exact_mod_cast (by omega : idx % H + 1 ≤ H)

namespace DotPainter

/-- Prior dot sampler output fields (C8, amended: alpha only in `[0,1]`,
the Beta draw being returned unclamped). -/
theorem sample_dot_prior_fields (W H : ℤ) (ux uy nr b c0 c1 c2 : ℝ)
    (h1 : 1 ≤ ux) (h2 : ux ≤ (W : ℝ)) (h3 : 1 ≤ uy) (h4 : uy ≤ (H : ℝ))
    (h5 : 0 ≤ b) (h6 : b ≤ 1) (h7 : 0 ≤ c0) (h8 : c0 ≤ 1) (h9 : 0 ≤ c1)
    (h10 : c1 ≤ 1) (h11 : 0 ≤ c2) (h12 : c2 ≤ 1) :
    DotFields W H (sample_dot_prior_cpp W H ux uy nr b c0 c1 c2) ∧
    0 ≤ (sample_dot_prior_cpp W H ux uy nr b c0 c1 c2).alpha ∧
    (sample_dot_prior_cpp W H ux uy nr b c0 c1 c2).alpha ≤ 1 := by
  simp only [DotFields, sample_dot_prior_cpp]
  exact ⟨⟨h1, h2, h3, h4, by linarith [abs_nonneg nr], h7, h8, h9, h10, h11, h12⟩, h5, h6⟩

/-- Jittered dot output fields (C8: the jitter sampler does clamp alpha,
into `[0.001, 0.999] ⊆ (0,1)`). -/
theorem jitter_dot_fields (dot : Dot) (W H : ℤ) (hW : 1 ≤ W) (hH : 1 ≤ H)
    (n1 n2 n3 n4 n5 n6 n7 : ℝ) :
    DotFields W H (jitter_dot_cpp dot W H n1 n2 n3 n4 n5 n6 n7) ∧
    0 < (jitter_dot_cpp dot W H n1 n2 n3 n4 n5 n6 n7).alpha ∧
    (jitter_dot_cpp dot W H n1 n2 n3 n4 n5 n6 n7).alpha < 1 := by
  have hW' : (1 : ℝ) ≤ (W : ℝ) := by exact_mod_cast hW
  have hH' : (1 : ℝ) ≤ (H : ℝ) := by exact_mod_cast hH
  simp only [DotFields, jitter_dot_cpp]
  refine ⟨⟨le_max_left _ _, max_le hW' (min_le_left _ _), le_max_left _ _,
    max_le hH' (min_le_left _ _), le_max_left _ _,
    le_min zero_le_one (le_max_left _ _), min_le_left _ _,
    le_min zero_le_one (le_max_left _ _), min_le_left _ _,
    le_min zero_le_one (le_max_left _ _), min_le_left _ _⟩, ?_, ?_⟩
  · exact lt_min (by norm_num) (lt_of_lt_of_le (by norm_num) (le_max_left _ _))
  · exact lt_of_le_of_lt (min_le_left _ _) (by norm_num)

/-- Data-driven dot birth output fields (C8, amended: alpha in `[0,1]`;
the out-of-bounds color branch, whose middle channel is a raw normal draw,
is unreachable because the seed pixel is always in bounds). -/
theorem sample_dot_birth_fields (target canvas : NVec) (W H : ℤ)
    (hW : 1 ≤ W) (hH : 1 ≤ H)
    (ht : ∀ i, 0 ≤ target.data i ∧ target.data i ≤ 1)
    (ufx ufy r nrad b i0 i1 i2 e0 e1 e2 : ℝ)
    (h1 : 1 ≤ ufx) (h2 : ufx ≤ (W : ℝ)) (h3 : 1 ≤ ufy) (h4 : ufy ≤ (H : ℝ))
    (h5 : 0 ≤ b) (h6 : b ≤ 1) (h7 : 0 ≤ i0) (h8 : i0 ≤ 1) (h9 : 0 ≤ i1)
    (h10 : i1 ≤ 1) (h11 : 0 ≤ i2) (h12 : i2 ≤ 1) :
    DotFields W H (sample_dot_birth_datadriven_cpp target canvas H W ufx ufy r nrad b
      i0 i1 i2 e0 e1 e2) ∧
    0 ≤ (sample_dot_birth_datadriven_cpp target canvas H W ufx ufy r nrad b
      i0 i1 i2 e0 e1 e2).alpha ∧
    (sample_dot_birth_datadriven_cpp target canvas H W ufx ufy r nrad b
      i0 i1 i2 e0 e1 e2).alpha ≤ 1 := by
  obtain ⟨⟨hx1, hxW⟩, hy1, hyH⟩ :=
    birth_seed_xy_bounds target canvas H W ufx ufy r hW hH h1 h2 h3 h4
  have hxtr : trunc (birth_seed_xy target canvas H W ufx ufy r).1 =
      ⌊(birth_seed_xy target canvas H W ufx ufy r).1⌋ :=
    trunc_of_nonneg _ (by linarith)
  have hytr : trunc (birth_seed_xy target canvas H W ufx ufy r).2 =
      ⌊(birth_seed_xy target canvas H W ufx ufy r).2⌋ :=
    trunc_of_nonneg _ (by linarith)
  have hxf1 : 1 ≤ ⌊(birth_seed_xy target canvas H W ufx ufy r).1⌋ :=
    Int.le_floor.mpr (by exact_mod_cast hx1)
  have hxfW : ⌊(birth_seed_xy target canvas H W ufx ufy r).1⌋ ≤ W := by
    have h := Int.floor_mono hxW
    rwa [Int.floor_intCast] at h
  have hyf1 : 1 ≤ ⌊(birth_seed_xy target canvas H W ufx ufy r).2⌋ :=
    Int.le_floor.mpr (by exact_mod_cast hy1)
  have hyfH : ⌊(birth_seed_xy target canvas H W ufx ufy r).2⌋ ≤ H := by
    have h := Int.floor_mono hyH
    rwa [Int.floor_intCast] at h
  have hcond : 0 ≤ trunc (birth_seed_xy target canvas H W ufx ufy r).1 - 1 ∧
      trunc (birth_seed_xy target canvas H W ufx ufy r).1 - 1 < W ∧
      0 ≤ trunc (birth_seed_xy target canvas H W ufx ufy r).2 - 1 ∧
      trunc (birth_seed_xy target canvas H W ufx ufy r).2 - 1 < H := by
    rw [hxtr, hytr]
    omega
  simp only [DotFields, sample_dot_birth_datadriven_cpp]
  rw [if_pos hcond]
  refine ⟨⟨hx1, hxW, hy1, hyH, by linarith [abs_nonneg nrad], ?_, ?_, ?_, ?_, ?_, ?_⟩,
    h5, h6⟩
  all_goals split_ifs
  all_goals first | exact (ht _).1 | exact (ht _).2 | assumption

end DotPainter

namespace LinePainter

/-- Prior line sampler output fields (C8, amended: alpha only in
`[0,1]`). -/
theorem sample_line_prior_fields (W H : ℤ) (hW : 1 ≤ W) (hH : 1 ≤ H)
    (ux uy ang nlen nw b c0 c1 c2 : ℝ)
    (h1 : 1 ≤ ux) (h2 : ux ≤ (W : ℝ)) (h3 : 1 ≤ uy) (h4 : uy ≤ (H : ℝ))
    (h5 : 0 ≤ b) (h6 : b ≤ 1) (h7 : 0 ≤ c0) (h8 : c0 ≤ 1) (h9 : 0 ≤ c1)
    (h10 : c1 ≤ 1) (h11 : 0 ≤ c2) (h12 : c2 ≤ 1) :
    LineFields W H (sample_line_prior_cpp W H ux uy ang nlen nw b c0 c1 c2) ∧
    0 ≤ (sample_line_prior_cpp W H ux uy ang nlen nw b c0 c1 c2).alpha ∧
    (sample_line_prior_cpp W H ux uy ang nlen nw b c0 c1 c2).alpha ≤ 1 := by
  have hW' : (1 : ℝ) ≤ (W : ℝ) := by exact_mod_cast hW
  have hH' : (1 : ℝ) ≤ (H : ℝ) := by exact_mod_cast hH
  simp only [LineFields, sample_line_prior_cpp]
  exact ⟨⟨h1, h2, h3, h4, le_max_left _ _, max_le hW' (min_le_left _ _),
    le_max_left _ _, max_le hH' (min_le_left _ _), by linarith [abs_nonneg nw],
    h7, h8, h9, h10, h11, h12⟩, h5, h6⟩

/-- Jittered line output fields (C8: alpha clamped into
`[0.001, 0.999] ⊆ (0,1)`, width clamped to at least 0.2). -/
theorem jitter_line_fields (line : Line) (W H : ℤ) (hW : 1 ≤ W) (hH : 1 ≤ H)
    (n1 n2 n3 n4 n5 n6 n7 n8 n9 : ℝ) :
    LineFields W H (jitter_line_cpp line W H n1 n2 n3 n4 n5 n6 n7 n8 n9) ∧
    0 < (jitter_line_cpp line W H n1 n2 n3 n4 n5 n6 n7 n8 n9).alpha ∧
    (jitter_line_cpp line W H n1 n2 n3 n4 n5 n6 n7 n8 n9).alpha < 1 := by
  have hW' : (1 : ℝ) ≤ (W : ℝ) := by exact_mod_cast hW
  have hH' : (1 : ℝ) ≤ (H : ℝ) := by exact_mod_cast hH
  simp only [LineFields, jitter_line_cpp]
  refine ⟨⟨le_max_left _ _, max_le hW' (min_le_left _ _), le_max_left _ _,
    max_le hH' (min_le_left _ _), le_max_left _ _, max_le hW' (min_le_left _ _),
    le_max_left _ _, max_le hH' (min_le_left _ _),
    lt_of_lt_of_le (by norm_num) (le_max_left _ _),
    le_min zero_le_one (le_max_left _ _), min_le_left _ _,
    le_min zero_le_one (le_max_left _ _), min_le_left _ _,
    le_min zero_le_one (le_max_left _ _), min_le_left _ _⟩, ?_, ?_⟩
  · exact lt_min (by norm_num) (lt_of_lt_of_le (by norm_num) (le_max_left _ _))
  · exact lt_of_le_of_lt (min_le_left _ _) (by norm_num)

/-- One probe step preserves the probe invariant. -/
theorem probe_step (st : (ℝ × ℝ × ℝ) × ℤ) (v0 v1 v2 : ℝ) (hst : ProbeInv st)
    (h0 : 0 ≤ v0 ∧ v0 ≤ 1) (h1 : 0 ≤ v1 ∧ v1 ≤ 1) (h2 : 0 ≤ v2 ∧ v2 ≤ 1) :
    ProbeInv ((st.1.1 + v0, st.1.2.1 + v1, st.1.2.2 + v2), st.2 + 1) := by
  obtain ⟨hs0, ⟨ha1, ha2⟩, ⟨hb1, hb2⟩, hc1, hc2⟩ := hst
  simp only [ProbeInv]
  refine ⟨by omega, ⟨by linarith [h0.1], ?_⟩, ⟨by linarith [h1.1], ?_⟩,
    by linarith [h2.1], ?_⟩
  all_goals push_cast
  · linarith [h0.2]
  · linarith [h1.2]
  · linarith [h2.2]

/-- The probe fold satisfies the probe invariant whenever the target's
samples lie in `[0,1]`. -/
theorem line_birth_probe_inv (target : NVec) (H W : ℤ) (A B C D : ℝ)
    (ht : ∀ i, 0 ≤ target.data i ∧ target.data i ≤ 1) :
    ProbeInv (line_birth_probe target H W A B C D) := by
  unfold line_birth_probe
  refine McmcPainter.foldl_inv ProbeInv _ _ _ (fun i _ st hst => ?_)
    ⟨le_rfl, ⟨le_rfl, by norm_num⟩, ⟨le_rfl, by norm_num⟩, le_rfl, by norm_num⟩
  dsimp only
  split_ifs
  · exact probe_step st _ _ _ hst (ht _) (ht _) (ht _)
  · exact hst

/-- The averaged probe color lies in `[0,1]` per channel. -/
theorem line_birth_col_bounds (target : NVec) (H W : ℤ) (A B C D : ℝ)
    (ht : ∀ i, 0 ≤ target.data i ∧ target.data i ≤ 1) :
    0 ≤ (if 0 < (line_birth_probe target H W A B C D).2 then
        ((line_birth_probe target H W A B C D).1.1 /
            ((line_birth_probe target H W A B C D).2 : ℝ),
          (line_birth_probe target H W A B C D).1.2.1 /
            ((line_birth_probe target H W A B C D).2 : ℝ),
          (line_birth_probe target H W A B C D).1.2.2 /
            ((line_birth_probe target H W A B C D).2 : ℝ))
      else (line_birth_probe target H W A B C D).1).1 ∧
    (if 0 < (line_birth_probe target H W A B C D).2 then
        ((line_birth_probe target H W A B C D).1.1 /
            ((line_birth_probe target H W A B C D).2 : ℝ),
          (line_birth_probe target H W A B C D).1.2.1 /
            ((line_birth_probe target H W A B C D).2 : ℝ),
          (line_birth_probe target H W A B C D).1.2.2 /
            ((line_birth_probe target H W A B C D).2 : ℝ))
      else (line_birth_probe target H W A B C D).1).1 ≤ 1 ∧
    0 ≤ (if 0 < (line_birth_probe target H W A B C D).2 then
        ((line_birth_probe target H W A B C D).1.1 /
            ((line_birth_probe target H W A B C D).2 : ℝ),
          (line_birth_probe target H W A B C D).1.2.1 /
            ((line_birth_probe target H W A B C D).2 : ℝ),
          (line_birth_probe target H W A B C D).1.2.2 /
            ((line_birth_probe target H W A B C D).2 : ℝ))
      else (line_birth_probe target H W A B C D).1).2.1 ∧
    (if 0 < (line_birth_probe target H W A B C D).2 then
        ((line_birth_probe target H W A B C D).1.1 /
            ((line_birth_probe target H W A B C D).2 : ℝ),
          (line_birth_probe target H W A B C D).1.2.1 /
            ((line_birth_probe target H W A B C D).2 : ℝ),
          (line_birth_probe target H W A B C D).1.2.2 /
            ((line_birth_probe target H W A B C D).2 : ℝ))
      else (line_birth_probe target H W A B C D).1).2.1 ≤ 1 ∧
    0 ≤ (if 0 < (line_birth_probe target H W A B C D).2 then
        ((line_birth_probe target H W A B C D).1.1 /
            ((line_birth_probe target H W A B C D).2 : ℝ),
          (line_birth_probe target H W A B C D).1.2.1 /
            ((line_birth_probe target H W A B C D).2 : ℝ),
          (line_birth_probe target H W A B C D).1.2.2 /
            ((line_birth_probe target H W A B C D).2 : ℝ))
      else (line_birth_probe target H W A B C D).1).2.2 ∧
    (if 0 < (line_birth_probe target H W A B C D).2 then
        ((line_birth_probe target H W A B C D).1.1 /
            ((line_birth_probe target H W A B C D).2 : ℝ),
          (line_birth_probe target H W A B C D).1.2.1 /
            ((line_birth_probe target H W A B C D).2 : ℝ),
          (line_birth_probe target H W A B C D).1.2.2 /
            ((line_birth_probe target H W A B C D).2 : ℝ))
      else (line_birth_probe target H W A B C D).1).2.2 ≤ 1 := by
  obtain ⟨hs0, ⟨ha1, ha2⟩, ⟨hb1, hb2⟩, hc1, hc2⟩ :=
    line_birth_probe_inv target H W A B C D ht
  split_ifs with hc
  · have hcpos : (0 : ℝ) < ((line_birth_probe target H W A B C D).2 : ℝ) := by
      exact_mod_cast hc
    refine ⟨div_nonneg ha1 hcpos.le, (div_le_one hcpos).mpr ha2,
      div_nonneg hb1 hcpos.le, (div_le_one hcpos).mpr hb2,
      div_nonneg hc1 hcpos.le, (div_le_one hcpos).mpr hc2⟩
  · have hz : (line_birth_probe target H W A B C D).2 = 0 := by omega
    rw [hz] at ha2 hb2 hc2
    push_cast at ha2 hb2 hc2
    exact ⟨ha1, by linarith, hb1, by linarith, hc1, by linarith⟩

/-- Data-driven line birth output fields (C8, amended: alpha in
`[0,1]`). -/
theorem sample_line_birth_fields (target canvas : NVec) (W H : ℤ)
    (hW : 1 ≤ W) (hH : 1 ≤ H)
    (ht : ∀ i, 0 ≤ target.data i ∧ target.data i ≤ 1)
    (ufx ufy r ang nlen nw b : ℝ)
    (h1 : 1 ≤ ufx) (h2 : ufx ≤ (W : ℝ)) (h3 : 1 ≤ ufy) (h4 : ufy ≤ (H : ℝ))
    (h5 : 0 ≤ b) (h6 : b ≤ 1) :
    LineFields W H (sample_line_birth_datadriven_cpp target canvas H W ufx ufy r
      ang nlen nw b) ∧
    0 ≤ (sample_line_birth_datadriven_cpp target canvas H W ufx ufy r ang nlen nw b).alpha ∧
    (sample_line_birth_datadriven_cpp target canvas H W ufx ufy r ang nlen nw b).alpha ≤ 1 := by
  have hW' : (1 : ℝ) ≤ (W : ℝ) := by exact_mod_cast hW
  have hH' : (1 : ℝ) ≤ (H : ℝ) := by exact_mod_cast hH
  simp only [LineFields, sample_line_birth_datadriven_cpp]
  obtain ⟨k1, k2, k3, k4, k5, k6⟩ := line_birth_col_bounds target H W
    (max 1 (min (W : ℝ) ((McmcPainter.birth_seed_xy target canvas H W ufx ufy r).1 -
      (|nlen| + 8) / 2 * Real.cos ang)))
    (max 1 (min (H : ℝ) ((McmcPainter.birth_seed_xy target canvas H W ufx ufy r).2 -
      (|nlen| + 8) / 2 * Real.sin ang)))
    (max 1 (min (W : ℝ) ((McmcPainter.birth_seed_xy target canvas H W ufx ufy r).1 +
      (|nlen| + 8) / 2 * Real.cos ang)))
    (max 1 (min (H : ℝ) ((McmcPainter.birth_seed_xy target canvas H W ufx ufy r).2 +
      (|nlen| + 8) / 2 * Real.sin ang))) ht
  exact ⟨⟨le_max_left _ _, max_le hW' (min_le_left _ _), le_max_left _ _,
    max_le hH' (min_le_left _ _), le_max_left _ _, max_le hW' (min_le_left _ _),
    le_max_left _ _, max_le hH' (min_le_left _ _), by linarith [abs_nonneg nw],
    k1, k2, k3, k4, k5, k6⟩, h5, h6⟩

end LinePainter

/-- C8, counterexample to the claim as stated.  The draws
`runif(1,4) = 2`, `rnorm = 0`, `rbeta(2,2) = 0` and `runif(0,1) = 1/2` all
lie in the supports of their distributions, yet `sample_dot_prior_cpp`
returns the Beta draw as alpha without any clamping, so the produced
primitive has `alpha = 0`, outside the valid domain `(0,1)`. -/
theorem C8_counterexample :
    (DotPainter.sample_dot_prior_cpp 4 4 2 2 0 0 (1 / 2) (1 / 2) (1 / 2)).alpha = 0 ∧
    ¬(0 < (DotPainter.sample_dot_prior_cpp 4 4 2 2 0 0 (1 / 2) (1 / 2) (1 / 2)).alpha) := by
  have h : (DotPainter.sample_dot_prior_cpp 4 4 2 2 0 0 (1 / 2) (1 / 2)
    (1 / 2)).alpha = 0 := rfl
  exact ⟨h, by rw [h]; norm_num⟩

set_option maxHeartbeats 1000000 in
/-- C8, amended.  For every RNG output sequence (uniform draws in their
`[lo,hi]` ranges, Beta draws in the closed support `[0,1]`, normal draws
arbitrary), every input primitive, and target samples in `[0,1]`, each of
the six samplers returns a primitive whose position fields lie in
`[1,W] × [1,H]`, dot radius at least 1, line width positive, and color
channels in `[0,1]`.  Alpha, however, is clamped only by the two jitter
samplers (into `[0.001, 0.999] ⊆ (0,1)`); the prior and birth samplers
return the raw Beta draw, so only `alpha ∈ [0,1]` holds for them. -/
theorem C8_amended (W H : ℤ) (hW : 1 ≤ W) (hH : 1 ≤ H)
    (target canvas : NVec) (ht : ∀ i, 0 ≤ target.data i ∧ target.data i ≤ 1)
    (a1 a2 a3 a4 a5 a6 a7 : ℝ)
    (b1 b2 b3 b4 b5 b6 b7 b8 b9 : ℝ)
    (dot : DotPainter.Dot) (c1 c2 c3 c4 c5 c6 c7 : ℝ)
    (line : LinePainter.Line) (d1 d2 d3 d4 d5 d6 d7 d8 d9 : ℝ)
    (e1 e2 e3 e4 e5 e6 e7 e8 e9 e10 e11 : ℝ)
    (f1 f2 f3 f4 f5 f6 f7 : ℝ)
    (ha1 : 1 ≤ a1) (ha2 : a1 ≤ (W : ℝ)) (ha3 : 1 ≤ a2) (ha4 : a2 ≤ (H : ℝ))
    (ha5 : 0 ≤ a4) (ha6 : a4 ≤ 1) (ha7 : 0 ≤ a5) (ha8 : a5 ≤ 1)
    (ha9 : 0 ≤ a6) (ha10 : a6 ≤ 1) (ha11 : 0 ≤ a7) (ha12 : a7 ≤ 1)
    (hb1 : 1 ≤ b1) (hb2 : b1 ≤ (W : ℝ)) (hb3 : 1 ≤ b2) (hb4 : b2 ≤ (H : ℝ))
    (hb5 : 0 ≤ b6) (hb6 : b6 ≤ 1) (hb7 : 0 ≤ b7) (hb8 : b7 ≤ 1)
    (hb9 : 0 ≤ b8) (hb10 : b8 ≤ 1) (hb11 : 0 ≤ b9) (hb12 : b9 ≤ 1)
    (he1 : 1 ≤ e1) (he2 : e1 ≤ (W : ℝ)) (he3 : 1 ≤ e2) (he4 : e2 ≤ (H : ℝ))
    (he5 : 0 ≤ e5) (he6 : e5 ≤ 1) (he7 : 0 ≤ e6) (he8 : e6 ≤ 1)
    (he9 : 0 ≤ e7) (he10 : e7 ≤ 1) (he11 : 0 ≤ e8) (he12 : e8 ≤ 1)
    (hf1 : 1 ≤ f1) (hf2 : f1 ≤ (W : ℝ)) (hf3 : 1 ≤ f2) (hf4 : f2 ≤ (H : ℝ))
    (hf5 : 0 ≤ f7) (hf6 : f7 ≤ 1) :
    (DotPainter.DotFields W H (DotPainter.sample_dot_prior_cpp W H a1 a2 a3 a4 a5 a6 a7) ∧
      0 ≤ (DotPainter.sample_dot_prior_cpp W H a1 a2 a3 a4 a5 a6 a7).alpha ∧
      (DotPainter.sample_dot_prior_cpp W H a1 a2 a3 a4 a5 a6 a7).alpha ≤ 1) ∧
    (LinePainter.LineFields W H
        (LinePainter.sample_line_prior_cpp W H b1 b2 b3 b4 b5 b6 b7 b8 b9) ∧
      0 ≤ (LinePainter.sample_line_prior_cpp W H b1 b2 b3 b4 b5 b6 b7 b8 b9).alpha ∧
      (LinePainter.sample_line_prior_cpp W H b1 b2 b3 b4 b5 b6 b7 b8 b9).alpha ≤ 1) ∧
    (DotPainter.DotFields W H (DotPainter.jitter_dot_cpp dot W H c1 c2 c3 c4 c5 c6 c7) ∧
      0 < (DotPainter.jitter_dot_cpp dot W H c1 c2 c3 c4 c5 c6 c7).alpha ∧
      (DotPainter.jitter_dot_cpp dot W H c1 c2 c3 c4 c5 c6 c7).alpha < 1) ∧
    (LinePainter.LineFields W H
        (LinePainter.jitter_line_cpp line W H d1 d2 d3 d4 d5 d6 d7 d8 d9) ∧
      0 < (LinePainter.jitter_line_cpp line W H d1 d2 d3 d4 d5 d6 d7 d8 d9).alpha ∧
      (LinePainter.jitter_line_cpp line W H d1 d2 d3 d4 d5 d6 d7 d8 d9).alpha < 1) ∧
    (DotPainter.DotFields W H (DotPainter.sample_dot_birth_datadriven_cpp target canvas
        H W e1 e2 e3 e4 e5 e6 e7 e8 e9 e10 e11) ∧
      0 ≤ (DotPainter.sample_dot_birth_datadriven_cpp target canvas H W e1 e2 e3 e4 e5
        e6 e7 e8 e9 e10 e11).alpha ∧
      (DotPainter.sample_dot_birth_datadriven_cpp target canvas H W e1 e2 e3 e4 e5 e6
        e7 e8 e9 e10 e11).alpha ≤ 1) ∧
    (LinePainter.LineFields W H (LinePainter.sample_line_birth_datadriven_cpp target
        canvas H W f1 f2 f3 f4 f5 f6 f7) ∧
      0 ≤ (LinePainter.sample_line_birth_datadriven_cpp target canvas H W f1 f2 f3 f4
        f5 f6 f7).alpha ∧
      (LinePainter.sample_line_birth_datadriven_cpp target canvas H W f1 f2 f3 f4 f5
        f6 f7).alpha ≤ 1) :=
  ⟨DotPainter.sample_dot_prior_fields W H a1 a2 a3 a4 a5 a6 a7
      ha1 ha2 ha3 ha4 ha5 ha6 ha7 ha8 ha9 ha10 ha11 ha12,
   LinePainter.sample_line_prior_fields W H hW hH b1 b2 b3 b4 b5 b6 b7 b8 b9
      hb1 hb2 hb3 hb4 hb5 hb6 hb7 hb8 hb9 hb10 hb11 hb12,
   DotPainter.jitter_dot_fields dot W H hW hH c1 c2 c3 c4 c5 c6 c7,
   LinePainter.jitter_line_fields line W H hW hH d1 d2 d3 d4 d5 d6 d7 d8 d9,
   DotPainter.sample_dot_birth_fields target canvas W H hW hH ht e1 e2 e3 e4 e5 e6 e7
      e8 e9 e10 e11 he1 he2 he3 he4 he5 he6 he7 he8 he9 he10 he11 he12,
   LinePainter.sample_line_birth_fields target canvas W H hW hH ht f1 f2 f3 f4 f5 f6 f7
      hf1 hf2 hf3 hf4 hf5 hf6⟩

/-- Witness for `C8_amended` at a concrete RNG sequence. -/
theorem C8_amended_witness :
    DotPainter.DotFields 1 1 (DotPainter.sample_dot_prior_cpp 1 1 1 1 0 (1 / 2) (1 / 2)
      (1 / 2) (1 / 2)) ∧
    0 ≤ (DotPainter.sample_dot_prior_cpp 1 1 1 1 0 (1 / 2) (1 / 2) (1 / 2) (1 / 2)).alpha ∧
    (DotPainter.sample_dot_prior_cpp 1 1 1 1 0 (1 / 2) (1 / 2) (1 / 2) (1 / 2)).alpha ≤ 1 :=
  (C8_amended 1 1 le_rfl le_rfl ⟨3, fun _ => 1 / 2⟩ ⟨3, fun _ => 1 / 2⟩
    (fun i => by norm_num) 1 1 0 (1 / 2) (1 / 2) (1 / 2) (1 / 2)
    1 1 0 0 0 (1 / 2) (1 / 2) (1 / 2) (1 / 2)
    ⟨1, 1, 1, 1 / 2, (1 / 2, 1 / 2, 1 / 2)⟩ 0 0 0 0 0 0 0
    ⟨1, 1, 1, 1, 1, 1 / 2, (1 / 2, 1 / 2, 1 / 2)⟩ 0 0 0 0 0 0 0 0 0
    1 1 0 0 (1 / 2) (1 / 2) (1 / 2) (1 / 2) 0 0 0
    1 1 0 0 0 0 (1 / 2)
    le_rfl (by norm_num) le_rfl (by norm_num) (by norm_num) (by norm_num)
    (by norm_num) (by norm_num) (by norm_num) (by norm_num) (by norm_num) (by norm_num)
    le_rfl (by norm_num) le_rfl (by norm_num) (by norm_num) (by norm_num)
    (by norm_num) (by norm_num) (by norm_num) (by norm_num) (by norm_num) (by norm_num)
    le_rfl (by norm_num) le_rfl (by norm_num) (by norm_num) (by norm_num)
    (by norm_num) (by norm_num) (by norm_num) (by norm_num) (by norm_num) (by norm_num)
    le_rfl (by norm_num) le_rfl (by norm_num) (by norm_num) (by norm_num)).1

end McmcPainter
